import Mathlib

/-!
Verification of the two Prebid.js modules in this repository:
the smaato bid adapter (`spec.buildRequests`, `spec.interpretResponse`,
`createImgAd`, `createRichmediaAd`) and the media.net analytics adapter
(`medianetAnalytics.track` and its event handlers, `formatQS`, `firePixel`,
`fireAuctionLog`, `fireApPrLog`, `Configure._parseResponse`,
`exchangeCurrency`, `medianetAnalytics.enableAnalytics`).

JavaScript values that flow through the adapters are embedded as the
inductive type `Val` below (`undefined`, `null`, booleans, finite numbers,
`NaN`, strings, plain objects as ordered key/value lists, arrays).  JS
numbers are modelled as exact rationals; none of the verified properties
depends on binary floating point rounding.
-/

set_option maxHeartbeats 1000000

/-- Embedding of a JavaScript value. Plain objects keep their keys in
insertion order, as the adapters rely on `Object.keys` ordering. -/
inductive Val where
  | undefined : Val
  | null : Val
  | boolean (bool : Bool) : Val
  | num (q : Rat) : Val
  | nan : Val
  | str (s : String) : Val
  | obj (fields : List (String × Val)) : Val
  | arr (elems : List Val) : Val
deriving Repr

/-- JS truthiness: `undefined`, `null`, `NaN`, `false`, `0` and `''` are
falsy, every other value (including every object and array) is truthy. -/
def Val.truthy : Val → Bool
  | .undefined => false
  | .null => false
  | .boolean bool => bool
  | .num q => q ≠ 0
  | .nan => false
  | .str s => s ≠ ""
  | .obj _ => true
  | .arr _ => true

/-- JS strict equality `===` restricted to the values the adapters compare:
primitives compare by value; two composite values (objects/arrays) compare
by reference, which the embedding conservatively models as `false`. -/
def Val.seq : Val → Val → Bool
  | .undefined, .undefined => true
  | .null, .null => true
  | .boolean a, .boolean b => a == b
  | .num a, .num b => a == b
  | .str a, .str b => a == b
  | _, _ => false

/-- Property read `base[key]`: `undefined`/`null` bases throw (modelled as
`Except.error`); plain objects look the key up; other primitives and arrays
yield `undefined` for the string keys the adapters use. -/
def jsGetProp (v : Val) (key : String) : Except Unit Val :=
  match v with
  | .undefined => .error ()
  | .null => .error ()
  | .obj fields =>
    match fields.find? (fun kv => kv.1 == key) with
    | some kv => .ok kv.2
    | none => .ok .undefined
  | _ => .ok .undefined

/-- Exception-free property read, as performed by the host's `deepAccess`
helper: missing or inaccessible properties give `undefined`. -/
def Val.get (v : Val) (key : String) : Val :=
  match v with
  | .obj fields =>
    match fields.find? (fun kv => kv.1 == key) with
    | some kv => kv.2
    | none => .undefined
  | _ => .undefined

/-- Array index read used by `deepAccess` paths such as `'0.bids.0.floorData'`. -/
def Val.idx (v : Val) (i : Nat) : Val :=
  match v with
  | .arr elems => (elems.get? i).getD .undefined
  | _ => .undefined

/-- Modelled from the spec: the host utility `deepAccess(obj, path)` walks a
dot-separated path, returning `undefined` as soon as a step is missing,
without throwing. -/
def deepAccessVal (v : Val) : List String → Val
  | [] => v
  | k :: rest =>
    match v with
    | .obj _ => deepAccessVal (v.get k) rest
    | .arr _ =>
      match k.toNat? with
      | some i => deepAccessVal (v.idx i) rest
      | none => deepAccessVal .undefined rest
    | _ => .undefined

/-- Uppercase hex digit, as produced by `encodeURIComponent`. -/
def hexDigitUpper (n : Nat) : Char :=
  if n < 10 then Char.ofNat (48 + n) else Char.ofNat (55 + n)

/-- Two-digit uppercase hex rendering of one byte. -/
def hexByte (b : UInt8) : String :=
  String.mk [hexDigitUpper (b.toNat / 16), hexDigitUpper (b.toNat % 16)]

/-- Characters `encodeURIComponent` leaves unescaped:
`A–Z a–z 0–9 - _ . ! ~ * ' ( )`. -/
def isUnescapedURIChar (c : Char) : Bool :=
  c.isAlphanum || c == '-' || c == '_' || c == '.' || c == '!' ||
  c == '~' || c == '*' || c == Char.ofNat 39 || c == '(' || c == ')'

/-- Percent-encoding of one character via its UTF-8 bytes. -/
def percentEncodeChar (c : Char) : String :=
  ((String.mk [c]).toUTF8.toList.map (fun b => "%" ++ hexByte b)).foldl
    (· ++ ·) ""

/-- The browser builtin `encodeURIComponent`. -/
def encodeURIComponent (s : String) : String :=
  (s.data.map (fun c =>
    if isUnescapedURIChar c then String.mk [c] else percentEncodeChar c)).foldl
    (· ++ ·) ""

/-- Decimal rendering of a rational, modelling JS number-to-string coercion
(exact for the integer values produced by the adapters; non-integers are
rendered with up to 18 fractional digits). -/
def ratToJsString (q : Rat) : String :=
  if q.den = 1 then toString q.num
  else
    let sign := if q.num < 0 then "-" else ""
    let n := q.num.natAbs
    let d := q.den
    let ip := n / d
    let rec fracDigits : Nat → Nat → List Char
      | 0, _ => []
      | _, 0 => []
      | fuel + 1, r =>
        let r10 := r * 10
        Char.ofNat (48 + r10 / d) :: fracDigits fuel (r10 % d)
    let frac := fracDigits 18 (n % d)
    sign ++ toString ip ++ "." ++ String.mk frac

/-- JSON string quoting used by `JSON.stringify`. -/
def jsonQuote (s : String) : String :=
  "\"" ++ (s.data.map (fun c =>
    if c == '"' then "\\\""
    else if c == '\\' then "\\\\"
    else if c == '\n' then "\\n"
    else if c == '\r' then "\\r"
    else if c == '\t' then "\\t"
    else if c.toNat < 32 then "\\u00" ++ hexByte (UInt8.ofNat c.toNat)
    else String.mk [c])).foldl (· ++ ·) "" ++ "\""

mutual
/-- The browser builtin `JSON.stringify`: `undefined` is unserializable
(`none`), `NaN` serializes as `null`, object fields with `undefined`
values are omitted, array holes become `null`. -/
def jsonStringifyVal : Val → Option String
  | .undefined => none
  | .null => some "null"
  | .boolean bool => some (cond bool "true" "false")
  | .num q => some (ratToJsString q)
  | .nan => some "null"
  | .str s => some (jsonQuote s)
  | .obj fields => some ("\x7b" ++ String.intercalate "," (jsonFields fields) ++ "\x7d")
  | .arr elems => some ("[" ++ String.intercalate "," (jsonElems elems) ++ "]")

def jsonFields : List (String × Val) → List String
  | [] => []
  | (k, v) :: rest =>
    match jsonStringifyVal v with
    | none => jsonFields rest
    | some sv => (jsonQuote k ++ ":" ++ sv) :: jsonFields rest

def jsonElems : List Val → List String
  | [] => []
  | v :: rest => ((jsonStringifyVal v).getD "null") :: jsonElems rest
end

mutual
/-- JS string coercion `String(value)` for the values the adapters place in
query strings; array elements are joined with `','`, with `undefined` and
`null` elements rendered empty, as `Array.prototype.toString` does. -/
def valToJsString : Val → String
  | .undefined => "undefined"
  | .null => "null"
  | .boolean bool => cond bool "true" "false"
  | .num q => ratToJsString q
  | .nan => "NaN"
  | .str s => s
  | .obj _ => "[object Object]"
  | .arr elems => String.intercalate "," (arrElemStrings elems)

def arrElemStrings : List Val → List String
  | [] => []
  | v :: rest =>
    (match v with
     | .undefined => ""
     | .null => ""
     | w => valToJsString w) :: arrElemStrings rest
end

/-- `Array.prototype.join(sep)` on an embedded array value, used by
`size.join('x')` and `allMediaTypeSizes.join('|')`. -/
def jsArrayJoin (sep : String) : Val → String
  | .arr elems => String.intercalate sep (arrElemStrings elems)
  | v => valToJsString v

/-- Numeric coercion for the arithmetic the adapters perform; `none` is NaN. -/
def valToNum : Val → Option Rat
  | .num q => some q
  | .boolean bool => some (cond bool 1 0)
  | .null => some 0
  | .str s => if s = "" then some 0 else (s.toInt?).map (fun n => (n : Rat))
  | _ => none

/-- JS subtraction on embedded values, NaN-propagating. -/
def jsSub (a b : Val) : Val :=
  match valToNum a, valToNum b with
  | some x, some y => .num (x - y)
  | _, _ => .nan

/-- JS division on embedded values, NaN-propagating (0/0 gives NaN;
x/0 gives Infinity, which the adapters never feed onward — modelled NaN-like). -/
def jsDiv (a b : Val) : Val :=
  match valToNum a, valToNum b with
  | some x, some y => if y = 0 then .nan else .num (x / y)
  | _, _ => .nan

/-- `Math.round`: floor of x + 1/2 on finite numbers, NaN otherwise. -/
def jsMathRound : Val → Val
  | .num q => .num ((⌊q + (1 : Rat)/2⌋ : Int) : Rat)
  | _ => .nan

/-- `parseInt(x, 10)`: parses a leading base-10 integer from the coerced
string; yields NaN (`Val.nan`) when no digits lead the string. -/
def jsParseInt (v : Val) : Val :=
  match v with
  | .num q => .num ((q.floor : Int) : Rat)
  | _ =>
    let s := valToJsString v
    let s := s.dropWhile (fun c => c == ' ')
    let (sign, rest) :=
      if s.startsWith "-" then ((-1 : Int), s.drop 1)
      else if s.startsWith "+" then ((1 : Int), s.drop 1)
      else ((1 : Int), s)
    let digits := rest.takeWhile Char.isDigit
    if digits = "" then .nan
    else .num ((sign * (digits.toNat!.cast : Int) : Int) : Rat)

/-- `parseFloat(x)`: leading decimal number of the coerced string. -/
def jsParseFloat (v : Val) : Val :=
  match v with
  | .num q => .num q
  | _ =>
    let s := valToJsString v
    let (sign, rest) :=
      if s.startsWith "-" then ((-1 : Rat), s.drop 1)
      else if s.startsWith "+" then ((1 : Rat), s)
      else ((1 : Rat), s)
    let ipart := rest.takeWhile Char.isDigit
    let rest2 := rest.drop ipart.length
    let fpart := if rest2.startsWith "." then (rest2.drop 1).takeWhile Char.isDigit else ""
    if ipart = "" && fpart = "" then .nan
    else
      let iv : Rat := (ipart.foldl (fun acc c => acc * 10 + (c.toNat - 48)) 0 : Nat)
      let fv : Rat := (fpart.foldl (fun acc c => acc * 10 + (c.toNat - 48)) 0 : Nat)
      .num (sign * (iv + fv / ((10 : Rat) ^ fpart.length)))

/-- Ordered string-keyed map update: replace the first binding of `key` in
place, or append a new binding, as JS property assignment does. -/
def setKey {α : Type} (l : List (String × α)) (key : String) (v : α) :
    List (String × α) :=
  match l with
  | [] => [(key, v)]
  | (k, w) :: rest =>
    if k == key then (k, v) :: rest else (k, w) :: setKey rest key v

/-- Ordered map lookup (first binding wins). -/
def getKey {α : Type} : List (String × α) → String → Option α
  | [], _ => none
  | (k0, v) :: rest, key => if k0 == key then some v else getKey rest key

/-- Apply `f` to the value bound to `key`, leaving the map unchanged when
the key is absent. -/
def updKey {α : Type} : List (String × α) → String → (α → α) → List (String × α)
  | [], _, _ => []
  | (k0, v) :: rest, key, f =>
    if k0 == key then (k0, f v) :: updKey rest key f
    else (k0, v) :: updKey rest key f

/-- `Object.assign(target, src)` on ordered field lists: source bindings
override in place or append. -/
def assignPairs (target src : List (String × Val)) : List (String × Val) :=
  src.foldl (fun acc kv => setKey acc kv.1 kv.2) target

/-! ## The smaato bid adapter

Embedding of the second module in the source file: `buildOpenRtbBidRequestPayload`,
`spec.isBidRequestValid`, `spec.buildRequests`, `spec.interpretResponse`,
`createImgAd` and `createRichmediaAd`. -/

namespace Smaato

def BIDDER_CODE : String := "smaato"
def SMAATO_ENDPOINT : String := "https://prebid-test.smaatolabs.net/bidder"
def CLIENT : String := "prebid/js/$prebid.version$_0.1"

/-- `bid.params` of a smaato bid request. For requests accepted by
`isBidRequestValid`, `publisherId` and `adspaceId` are strings. -/
structure BidParams where
  publisherId : String
  adspaceId : String
  endpoint : Option String
deriving Repr

/-- A validated bid request as consumed by `buildRequests`.
Modelled from the spec: the host utility `utils.getAdUnitSizes(br)` returns
the request's ad-unit sizes as a list of width/height pairs; the embedding
carries that list directly in the `sizes` field. -/
structure ValidBidRequest where
  bidId : String
  sizes : List (Nat × Nat)
  params : BidParams
deriving Repr

structure RefererInfo where
  referer : String
deriving Repr

structure GdprConsent where
  gdprApplies : Bool
  consentString : String
deriving Repr

structure BidderRequest where
  auctionId : String
  refererInfo : RefererInfo
  gdprConsent : Option GdprConsent
  uspConsent : Option String
deriving Repr

/-- The browser/host environment read while building the payload
(`window.location`, `navigator`, `screen`, `config.getConfig('coppa')`,
`utils.getDNT()`). -/
structure Env where
  hostname : String
  href : String
  language : Option String
  userAgent : String
  dnt : Bool
  screenHeight : Nat
  screenWidth : Nat
  coppa : Bool
deriving Repr

/-- One `{w, h}` entry of `imp[i].banner.format`. -/
structure OrtbFormat where
  w : Nat
  h : Nat
deriving Repr, DecidableEq

structure OrtbBanner where
  w : Nat
  h : Nat
  format : List OrtbFormat
deriving Repr, DecidableEq

structure OrtbImp where
  id : String
  banner : OrtbBanner
  tagid : String
deriving Repr, DecidableEq

structure OrtbSite where
  id : String
  publisherId : Option String
  domain : String
  page : String
  ref : String
deriving Repr, DecidableEq

structure OrtbDevice where
  language : String
  ua : String
  dnt : Nat
  h : Nat
  w : Nat
deriving Repr, DecidableEq

structure OrtbRegs where
  coppa : Nat
  gdpr : Nat
  us_privacy : Option String
deriving Repr, DecidableEq

/-- The OpenRTB-like bid request object built by
`buildOpenRtbBidRequestPayload` (before `JSON.stringify`). -/
structure OrtbRequest where
  id : String
  at_req : Nat
  imp : List OrtbImp
  cur : List String
  site : OrtbSite
  device : OrtbDevice
  regs : OrtbRegs
  extClient : String
deriving Repr, DecidableEq

/-- The inner `parseSizes` helper: prebid `[[w, h], …]` sizes to openRTB
`[{w, h}, …]` mappings. -/
def parseSizes (sizes : List (Nat × Nat)) : List OrtbFormat :=
  sizes.map (fun size => { w := size.1, h := size.2 })

/-- One element of the `imp` array. `sizes[0].w` throws on an empty size
list in the source, modelled as `none`. -/
def buildImp (br : ValidBidRequest) : Option OrtbImp :=
  let sizes := parseSizes br.sizes
  match sizes with
  | [] => none
  | s0 :: _ =>
    some { id := br.bidId,
           banner := { w := s0.w, h := s0.h, format := sizes },
           tagid := br.params.adspaceId }

/-- `navigator.language.split('-')[0]`, `''` when the language is absent. -/
def deviceLanguage (language : Option String) : String :=
  match language with
  | some s => ((s.splitOn "-").headD "")
  | none => ""

/-- The OpenRTB request object assembled by `buildOpenRtbBidRequestPayload`;
`none` models the TypeError thrown when some request has no sizes. -/
def buildOpenRtbBidRequest (validBidRequests : List ValidBidRequest)
    (bidderRequest : BidderRequest) (env : Env) : Option OrtbRequest :=
  (validBidRequests.mapM buildImp).map (fun imp =>
    { id := bidderRequest.auctionId,
      at_req := 1,
      imp := imp,
      cur := ["USD"],
      site := { id := env.hostname,
                publisherId := (validBidRequests.head?).map (fun r => r.params.publisherId),
                domain := env.hostname,
                page := env.href,
                ref := bidderRequest.refererInfo.referer },
      device := { language := deviceLanguage env.language,
                  ua := env.userAgent,
                  dnt := if env.dnt then 1 else 0,
                  h := env.screenHeight,
                  w := env.screenWidth },
      regs := { coppa := if env.coppa then 1 else 0,
                gdpr := match bidderRequest.gdprConsent with
                        | some g => if g.gdprApplies then 1 else 0
                        | none => 0,
                us_privacy := bidderRequest.uspConsent },
      extClient := CLIENT })

/-- JSON image of an `OrtbRequest`, with fields in the order the source
object literal creates them (`us_privacy` is `deepSetValue`d after
construction, hence last inside `regs.ext`). -/
def ortbRequestJson (r : OrtbRequest) : Val :=
  .obj [("id", .str r.id),
        ("at", .num r.at_req),
        ("imp", .arr (r.imp.map (fun i =>
          .obj [("id", .str i.id),
                ("banner", .obj [("w", .num i.banner.w),
                                 ("h", .num i.banner.h),
                                 ("format", .arr (i.banner.format.map (fun f =>
                                   .obj [("w", .num f.w), ("h", .num f.h)])))]),
                ("tagid", .str i.tagid)]))),
        ("cur", .arr (r.cur.map .str)),
        ("site", .obj [("id", .str r.site.id),
                       ("publisher", .obj [("id",
                         match r.site.publisherId with
                         | some p => .str p
                         | none => .undefined)]),
                       ("domain", .str r.site.domain),
                       ("page", .str r.site.page),
                       ("ref", .str r.site.ref)]),
        ("device", .obj [("language", .str r.device.language),
                         ("ua", .str r.device.ua),
                         ("dnt", .num r.device.dnt),
                         ("h", .num r.device.h),
                         ("w", .num r.device.w)]),
        ("regs", .obj [("coppa", .num r.regs.coppa),
                       ("ext", .obj ([("gdpr", .num r.regs.gdpr)] ++
                         (match r.regs.us_privacy with
                          | some u => [("us_privacy", Val.str u)]
                          | none => [])))]),
        ("ext", .obj [("client", .str CLIENT)])]

/-- `buildOpenRtbBidRequestPayload`: the `JSON.stringify` of the assembled
request. -/
def buildOpenRtbBidRequestPayload (validBidRequests : List ValidBidRequest)
    (bidderRequest : BidderRequest) (env : Env) : Option String :=
  (buildOpenRtbBidRequest validBidRequests bidderRequest env).map (fun r =>
    (jsonStringifyVal (ortbRequestJson r)).getD "")

/-- `spec.isBidRequestValid` on the typed embedding: the three `typeof`
checks hold by construction of `BidParams`. -/
def isBidRequestValid (_bid : ValidBidRequest) : Bool := true

structure ServerRequest where
  method : String
  url : String
  data : String
  headerClient : String
  headerSessionId : String
deriving Repr, DecidableEq

/-- `validBidRequests[0].params.endpoint || SMAATO_ENDPOINT` (a falsy —
absent or empty — endpoint falls back to the default). -/
def requestUrl (r0 : ValidBidRequest) : String :=
  match r0.params.endpoint with
  | some e => if e = "" then SMAATO_ENDPOINT else e
  | none => SMAATO_ENDPOINT

/-- `spec.buildRequests`. `none` models the TypeError on an empty request
list (`validBidRequests[0].params`) or on a request without sizes. -/
def buildRequests (validBidRequests : List ValidBidRequest)
    (bidderRequest : BidderRequest) (env : Env) : Option ServerRequest :=
  match validBidRequests with
  | [] => none
  | r0 :: _ =>
    (buildOpenRtbBidRequestPayload validBidRequests bidderRequest env).map
      (fun data =>
        { method := "POST",
          url := requestUrl r0,
          data := data,
          headerClient := CLIENT,
          headerSessionId := bidderRequest.auctionId })

/-- The parsed `JSON.parse(adm).image` payload consumed by `createImgAd`. -/
structure ImgData where
  ctaurl : String
  url : String
  w : Nat
  h : Nat
  clicktrackers : List String
  impressiontrackers : List String
deriving Repr, DecidableEq

/-- The parsed `JSON.parse(adm).richmedia.mediadata` payload consumed by
`createRichmediaAd`. -/
structure RichData where
  content : String
deriving Repr, DecidableEq

/-- Modelled from the spec: the ad markup string `b.adm` as the external
`JSON.parse` builtin decodes it — an image payload, a richmedia payload, or
some other JSON shape. -/
inductive AdmData where
  | img (d : ImgData) : AdmData
  | rich (d : RichData) : AdmData
  | other : AdmData
deriving Repr, DecidableEq

/-- `createImgAd`: click-tracker fetches, the anchor/img markup, then one
tracking pixel per impression tracker. -/
def createImgAd (image : ImgData) : String :=
  let clickEvent := (image.clicktrackers.map (fun src =>
    "fetch(decodeURIComponent('" ++ encodeURIComponent src ++
    "'), \x7bcache: 'no-cache'\x7d);")).foldl (· ++ ·) ""
  let markup := "<div onclick=\"" ++ clickEvent ++ "\"><a href=\"" ++
    image.ctaurl ++ "\"><img src=\"" ++ image.url ++ "\" width=\"" ++
    toString image.w ++ "\" height=\"" ++ toString image.h ++ "\"/></a></div>"
  (image.impressiontrackers.map (fun src =>
    "<img src=\"" ++ src ++ "\" alt=\"\" width=\"0\" height=\"0\"/>")).foldl
    (· ++ ·) markup

/-- `createRichmediaAd`. -/
def createRichmediaAd (rich : RichData) : String :=
  rich.content

/-- The ad markup chosen by the `switch (smtAdType)`: `''` for `Video` and
unknown types; `none` models the exception thrown when the adm JSON does
not have the shape the creator expects. -/
def adFor (smtAdType : Option String) (adm : AdmData) : Option String :=
  match smtAdType with
  | some "Img" =>
    match adm with
    | .img d => some (createImgAd d)
    | _ => none
  | some "Richmedia" =>
    match adm with
    | .rich d => some (createRichmediaAd d)
    | _ => none
  | _ => some ""

/-- One OpenRTB seatbid bid of the server response body. -/
structure OrtbBid where
  impid : String
  price : Option Rat
  w : Option Nat
  h : Option Nat
  adm : AdmData
  crid : Option String
  dealid : Option String
deriving Repr, DecidableEq

structure SeatBid where
  bid : List OrtbBid
deriving Repr, DecidableEq

structure RespBody where
  seatbid : List SeatBid
  cur : Option String
deriving Repr, DecidableEq

/-- Response headers: `X-SMT-ADTYPE` and `X-SMT-Expires`. -/
structure RespHeaders where
  adType : Option String
  expires : Option Int
deriving Repr, DecidableEq

structure ServerResponse where
  headers : RespHeaders
  body : Option RespBody
deriving Repr, DecidableEq

/-- A prebid bid as pushed by `interpretResponse`. -/
structure PrebidBid where
  requestId : String
  cpm : Rat
  width : Option Nat
  height : Option Nat
  ad : String
  ttl : Int
  creativeId : Option String
  dealId : Option String
  netRevenue : Bool
  currency : Option String
deriving Repr, DecidableEq

/-- `Math.floor((smtExpires - Date.now()) / 1000)`, 300 when the expires
header is absent. -/
def ttlFor (expires : Option Int) (now : Int) : Int :=
  match expires with
  | some e => (e - now).fdiv 1000
  | none => 300

/-- The bid object pushed for one seatbid bid with markup `ad`. -/
def mkPrebidBid (res : RespBody) (ttlSec : Int) (b : OrtbBid) (ad : String) :
    PrebidBid :=
  { requestId := b.impid,
    cpm := match b.price with
           | some p => p
           | none => 0,
    width := b.w,
    height := b.h,
    ad := ad,
    ttl := ttlSec,
    creativeId := b.crid,
    dealId := match b.dealid with
              | some d => if d = "" then none else some d
              | none => none,
    netRevenue := false,
    currency := res.cur }

/-- `spec.interpretResponse`.  The outer `Option` models the exception
thrown by `createImgAd`/`createRichmediaAd` when an adm payload does not
match the advertised `X-SMT-ADTYPE`; an absent body yields `some []`. -/
def interpretResponse (serverResponse : ServerResponse) (now : Int) :
    Option (List PrebidBid) :=
  let smtAdType := serverResponse.headers.adType
  let ttlSec := ttlFor serverResponse.headers.expires now
  match serverResponse.body with
  | none => some []
  | some res =>
    (res.seatbid.mapM (fun (sb : SeatBid) =>
      (sb.bid.mapM (fun (b : OrtbBid) =>
        (adFor smtAdType b.adm).map (fun ad =>
          if ad = "" then ([] : List PrebidBid)
          else [mkPrebidBid res ttlSec b ad]))).map (fun ls => ls.flatten))).map
      (fun ls => ls.flatten)

end Smaato

namespace Smaato

/-- Helper: when every request has at least one size, `mapM buildImp`
succeeds and the resulting imps correspond pointwise, in order. -/
theorem mapM_buildImp_ok (l : List ValidBidRequest)
    (h : ∀ r ∈ l, r.sizes ≠ []) :
    ∃ imps, l.mapM buildImp = some imps ∧
      List.Forall₂ (fun (r : ValidBidRequest) (i : OrtbImp) =>
        i.id = r.bidId ∧ i.banner.format = parseSizes r.sizes) l imps := by
  induction l with
  | nil => exact ⟨[], rfl, .nil⟩
  | cons r rest ih =>
    obtain ⟨imps, hm, hf⟩ := ih (fun x hx => h x (List.mem_cons_of_mem _ hx))
    have hr := h r (List.mem_cons_self _ _)
    obtain ⟨s0, srest, hs⟩ := List.exists_cons_of_ne_nil hr
    refine ⟨{
        id := r.bidId,
        banner := { w := s0.1, h := s0.2, format := parseSizes r.sizes },
        tagid := r.params.adspaceId } :: imps, ?_, ?_⟩
    · have hb : buildImp r = some {
          id := r.bidId,
          banner := { w := s0.1, h := s0.2, format := parseSizes r.sizes },
          tagid := r.params.adspaceId } := by
        unfold buildImp
        rw [hs]
        simp [parseSizes]
      rw [List.mapM_cons, hb, hm]
      rfl
    · exact List.Forall₂.cons ⟨rfl, rfl⟩ hf

/-- C1: for every non-empty list of valid bid requests, each with at least
one ad-unit size, and every bidder request, `spec.buildRequests` returns a
POST server request whose `data` field is the JSON serialization of the
OpenRTB-like bid request it assembles, and that request contains exactly
one `imp` entry per input bid request, in order, with `imp[i].id` equal to
the i-th request's `bidId` and `imp[i].banner.format` listing that
request's sizes as `{w, h}` objects. -/
theorem smaato_buildRequests_openrtb_imps
    (validBidRequests : List ValidBidRequest) (bidderRequest : BidderRequest)
    (env : Env) (hne : validBidRequests ≠ [])
    (hsz : ∀ r ∈ validBidRequests, r.sizes ≠ []) :
    ∃ sreq ortb,
      buildRequests validBidRequests bidderRequest env = some sreq ∧
      sreq.method = "POST" ∧
      buildOpenRtbBidRequest validBidRequests bidderRequest env = some ortb ∧
      sreq.data = (jsonStringifyVal (ortbRequestJson ortb)).getD "" ∧
      ortb.imp.length = validBidRequests.length ∧
      List.Forall₂ (fun (r : ValidBidRequest) (i : OrtbImp) =>
        i.id = r.bidId ∧
        i.banner.format = r.sizes.map (fun s => { w := s.1, h := s.2 }))
        validBidRequests ortb.imp := by
  obtain ⟨r0, rrest, hrx⟩ := List.exists_cons_of_ne_nil hne
  obtain ⟨imps, hm, hf⟩ := mapM_buildImp_ok validBidRequests hsz
  have hortb : ∃ ortb, buildOpenRtbBidRequest validBidRequests bidderRequest env
      = some ortb ∧ ortb.imp = imps := by
    unfold buildOpenRtbBidRequest
    rw [hm]
    exact ⟨_, rfl, rfl⟩
  obtain ⟨ortb, hortb, himp⟩ := hortb
  have hpay : buildOpenRtbBidRequestPayload validBidRequests bidderRequest env =
      some ((jsonStringifyVal (ortbRequestJson ortb)).getD "") := by
    simp [buildOpenRtbBidRequestPayload, hortb]
  subst hrx
  refine ⟨{
      method := "POST",
      url := requestUrl r0,
      data := (jsonStringifyVal (ortbRequestJson ortb)).getD "",
      headerClient := CLIENT,
      headerSessionId := bidderRequest.auctionId }, ortb, ?_, rfl, hortb, rfl, ?_, ?_⟩
  · unfold buildRequests
    rw [hpay]
    rfl
  · rw [himp]
    exact hf.length_eq.symm
  · rw [himp]
    exact hf.imp (fun {r i} h => ⟨h.1, by rw [h.2]; rfl⟩)

/-- Witness for C1 at a concrete input. -/
theorem smaato_buildRequests_openrtb_imps_witness :
    ∃ sreq ortb,
      buildRequests
        [{ bidId := "bid1", sizes := [(300, 250), (728, 90)],
           params := { publisherId := "pub1", adspaceId := "space1", endpoint := none } }]
        { auctionId := "auc1", refererInfo := { referer := "http://r" },
          gdprConsent := none, uspConsent := none }
        { hostname := "h", href := "u", language := none, userAgent := "ua",
          dnt := false, screenHeight := 600, screenWidth := 800, coppa := false }
        = some sreq ∧
      sreq.method = "POST" ∧
      buildOpenRtbBidRequest
        [{ bidId := "bid1", sizes := [(300, 250), (728, 90)],
           params := { publisherId := "pub1", adspaceId := "space1", endpoint := none } }]
        { auctionId := "auc1", refererInfo := { referer := "http://r" },
          gdprConsent := none, uspConsent := none }
        { hostname := "h", href := "u", language := none, userAgent := "ua",
          dnt := false, screenHeight := 600, screenWidth := 800, coppa := false }
        = some ortb ∧
      sreq.data = (jsonStringifyVal (ortbRequestJson ortb)).getD "" ∧
      ortb.imp.length =
        [({ bidId := "bid1", sizes := [(300, 250), (728, 90)],
            params := { publisherId := "pub1", adspaceId := "space1", endpoint := none } } :
          ValidBidRequest)].length ∧
      List.Forall₂ (fun (r : ValidBidRequest) (i : OrtbImp) =>
        i.id = r.bidId ∧
        i.banner.format = r.sizes.map (fun s => { w := s.1, h := s.2 }))
        [{ bidId := "bid1", sizes := [(300, 250), (728, 90)],
           params := { publisherId := "pub1", adspaceId := "space1", endpoint := none } }]
        ortb.imp :=
  smaato_buildRequests_openrtb_imps _ _ _ (by simp)
    (by intro r hr; simp only [List.mem_singleton] at hr; subst hr; simp)

/-- Helper: the per-bid list pushed by `interpretResponse` for one seatbid,
when every adm payload matches the advertised ad type. -/
def bidEntry (adType : Option String) (res : RespBody) (ttlSec : Int)
    (b : OrtbBid) : List PrebidBid :=
  match adFor adType b.adm with
  | some ad => if ad = "" then [] else [mkPrebidBid res ttlSec b ad]
  | none => []

theorem mapM_bids_ok (adType : Option String) (res : RespBody) (ttlSec : Int)
    (bids : List OrtbBid) (h : ∀ b ∈ bids, (adFor adType b.adm).isSome) :
    bids.mapM (fun (b : OrtbBid) =>
        (adFor adType b.adm).map (fun ad =>
          if ad = "" then ([] : List PrebidBid)
          else [mkPrebidBid res ttlSec b ad]))
      = some (bids.map (bidEntry adType res ttlSec)) := by
  induction bids with
  | nil => rfl
  | cons b rest ih =>
    have hb := h b (List.mem_cons_self _ _)
    obtain ⟨ad, had⟩ := Option.isSome_iff_exists.mp hb
    rw [List.mapM_cons, had, ih (fun x hx => h x (List.mem_cons_of_mem _ hx))]
    simp [bidEntry, had]

theorem mapM_seatbids_ok (adType : Option String) (res : RespBody)
    (ttlSec : Int) (sbs : List SeatBid)
    (h : ∀ sb ∈ sbs, ∀ b ∈ sb.bid, (adFor adType b.adm).isSome) :
    sbs.mapM (fun (sb : SeatBid) =>
        (sb.bid.mapM (fun (b : OrtbBid) =>
          (adFor adType b.adm).map (fun ad =>
            if ad = "" then ([] : List PrebidBid)
            else [mkPrebidBid res ttlSec b ad]))).map (fun ls => ls.flatten))
      = some (sbs.map (fun sb => (sb.bid.map (bidEntry adType res ttlSec)).flatten)) := by
  induction sbs with
  | nil => rfl
  | cons sb rest ih =>
    rw [List.mapM_cons,
      mapM_bids_ok adType res ttlSec sb.bid (h sb (List.mem_cons_self _ _)),
      ih (fun x hx => h x (List.mem_cons_of_mem _ hx))]
    rfl

/-- C2: for every server response whose body is present, `spec.interpretResponse`
returns one prebid bid per seatbid bid whose generated ad markup is
non-empty, in order, with `requestId = impid`, `cpm` the bid's price (0
when the price is absent), width/height from `w`/`h`, `creativeId` from
`crid`, `dealId` from `dealid` (null when absent or falsy), `netRevenue`
false and `currency` the body's `cur`; when the body is absent it returns
the empty list. -/
theorem smaato_interpretResponse_bids (resp : ServerResponse) (now : Int)
    (res : RespBody) (hb : resp.body = some res)
    (hok : ∀ sb ∈ res.seatbid, ∀ b ∈ sb.bid,
      (adFor resp.headers.adType b.adm).isSome) :
    (interpretResponse resp now =
      some ((res.seatbid.map (fun sb =>
        (sb.bid.map (bidEntry resp.headers.adType res
          (ttlFor resp.headers.expires now))).flatten)).flatten)) ∧
    (∀ b : OrtbBid, ∀ ad, adFor resp.headers.adType b.adm = some ad →
      (ad = "" → bidEntry resp.headers.adType res (ttlFor resp.headers.expires now) b = []) ∧
      (ad ≠ "" →
        bidEntry resp.headers.adType res (ttlFor resp.headers.expires now) b =
          [mkPrebidBid res (ttlFor resp.headers.expires now) b ad])) ∧
    (∀ b : OrtbBid, ∀ ad,
      (mkPrebidBid res (ttlFor resp.headers.expires now) b ad).requestId = b.impid ∧
      (∀ p, b.price = some p →
        (mkPrebidBid res (ttlFor resp.headers.expires now) b ad).cpm = p) ∧
      (b.price = none → (mkPrebidBid res (ttlFor resp.headers.expires now) b ad).cpm = 0) ∧
      (mkPrebidBid res (ttlFor resp.headers.expires now) b ad).width = b.w ∧
      (mkPrebidBid res (ttlFor resp.headers.expires now) b ad).height = b.h ∧
      (mkPrebidBid res (ttlFor resp.headers.expires now) b ad).ad = ad ∧
      (mkPrebidBid res (ttlFor resp.headers.expires now) b ad).creativeId = b.crid ∧
      (b.dealid = none →
        (mkPrebidBid res (ttlFor resp.headers.expires now) b ad).dealId = none) ∧
      (∀ d, b.dealid = some d → d ≠ "" →
        (mkPrebidBid res (ttlFor resp.headers.expires now) b ad).dealId = some d) ∧
      (mkPrebidBid res (ttlFor resp.headers.expires now) b ad).netRevenue = false ∧
      (mkPrebidBid res (ttlFor resp.headers.expires now) b ad).currency = res.cur) ∧
    (∀ (resp' : ServerResponse) (now' : Int), resp'.body = none →
      interpretResponse resp' now' = some []) := by
  refine ⟨?_, ?_, ?_, ?_⟩
  · have hstep : interpretResponse resp now =
        (res.seatbid.mapM (fun (sb : SeatBid) =>
          (sb.bid.mapM (fun (b : OrtbBid) =>
            (adFor resp.headers.adType b.adm).map (fun ad =>
              if ad = "" then ([] : List PrebidBid)
              else [mkPrebidBid res (ttlFor resp.headers.expires now) b ad]))).map
            (fun ls => ls.flatten))).map (fun ls => ls.flatten) := by
      unfold interpretResponse
      rw [hb]
    rw [hstep, mapM_seatbids_ok resp.headers.adType res
      (ttlFor resp.headers.expires now) res.seatbid hok]
    rfl
  · intro b ad had
    constructor
    · intro hempty
      simp [bidEntry, had, hempty]
    · intro hne
      simp [bidEntry, had, hne]
  · intro b ad
    refine ⟨rfl, ?_, ?_, rfl, rfl, rfl, rfl, ?_, ?_, rfl, rfl⟩
    · intro p hp
      simp [mkPrebidBid, hp]
    · intro hp
      simp [mkPrebidBid, hp]
    · intro hd
      simp [mkPrebidBid, hd]
    · intro d hd hne
      simp [mkPrebidBid, hd, hne]
  · intro resp' now' hnone
    unfold interpretResponse
    rw [hnone]

/-- Witness for C2 at a concrete response. -/
theorem smaato_interpretResponse_bids_witness :
    ((⟨⟨some "Richmedia", none⟩,
      some ⟨[⟨[⟨"imp1", some 2, some 300, some 250, .rich ⟨"<b>x</b>"⟩,
        some "cr1", some "deal"⟩]⟩], some "USD"⟩⟩ : ServerResponse).body =
      some ⟨[⟨[⟨"imp1", some 2, some 300, some 250, .rich ⟨"<b>x</b>"⟩,
        some "cr1", some "deal"⟩]⟩], some "USD"⟩) ∧
    (interpretResponse
      ⟨⟨some "Richmedia", none⟩,
       some ⟨[⟨[⟨"imp1", some 2, some 300, some 250, .rich ⟨"<b>x</b>"⟩,
         some "cr1", some "deal"⟩]⟩], some "USD"⟩⟩ 0 =
      some [{ requestId := "imp1", cpm := 2, width := some 300,
              height := some 250, ad := "<b>x</b>", ttl := 300,
              creativeId := some "cr1", dealId := some "deal",
              netRevenue := false, currency := some "USD" }]) := by
  constructor
  · rfl
  · have h := smaato_interpretResponse_bids
      ⟨⟨some "Richmedia", none⟩,
       some ⟨[⟨[⟨"imp1", some 2, some 300, some 250, .rich ⟨"<b>x</b>"⟩,
         some "cr1", some "deal"⟩]⟩], some "USD"⟩⟩ 0
      ⟨[⟨[⟨"imp1", some 2, some 300, some 250, .rich ⟨"<b>x</b>"⟩,
        some "cr1", some "deal"⟩]⟩], some "USD"⟩ rfl
      (by
        intro sb hsb b hbb
        simp only [List.mem_singleton] at hsb
        subst hsb
        simp only [List.mem_singleton] at hbb
        subst hbb
        rfl)
    rw [h.1]
    rfl

end Smaato

/-! ## The media.net analytics adapter

Embedding of the first module in the source file: the adapter's global
state (`auctions`, `config`, `pageDetails`, `logsQueue`, `errorQueue`),
the `Bid`/`AdSlot`/`Auction`/`BidWrapper` classes, the eight lifecycle
event handlers, the logging pipeline (`formatQS`, `firePixel`,
`fireAuctionLog`, `fireApPrLog`), the remote configuration
(`Configure._parseResponse`), `exchangeCurrency` and `enableAnalytics`.

`Math.random()` is modelled as an oracle stream of rationals carried in
the state; `Date.now()` as a clock field; the external `convertCurrency`
and `JSON.parse` collaborators as explicit outcome parameters. -/

namespace Medianet

def ENDPOINT : String :=
  "https://pb-logs.media.net/log?logid=kfk&evtid=prebid_analytics_events_client"
def EVENT_PIXEL_URL : String := "https://qsearch-a.akamaihd.net/log"
def DEFAULT_LOGGING_PERCENT : Rat := 50
def ANALYTICS_VERSION : String := "1.0.0"
def PREBID_VERSION : String := "$prebid.version$"
def MEDIANET_BIDDER_CODE : String := "medianet"
def ERROR_CONFIG_JSON_PARSE : String := "analytics_config_parse_fail"
def ERROR_CONFIG_FETCH : String := "analytics_config_ajax_fail"
def ERROR_WINNING_BID_ABSENT : String := "winning_bid_absent"
def ERROR_WINNING_AUCTION_MISSING : String := "winning_auction_missing"
def BID_SUCCESS : Nat := 1
def BID_NOBID : Nat := 2
def BID_TIMEOUT_STATUS : Nat := 3
def BID_FLOOR_REJECTED : Nat := 12
def DUMMY_BIDDER : String := "-2"
def CONFIG_PENDING : Nat := 0
def CONFIG_PASS : Nat := 1
def CONFIG_ERROR : Nat := 3
def VALID_URL_KEY : List String := ["canonical_url", "og_url", "twitter_url"]
def DEFAULT_URL_KEY : String := "topmostLocation"
def LOG_TYPE_APPR : String := "APPR"
def LOG_TYPE_RA : String := "RA"

/-- Modelled from the spec: the host constants `AUCTION_IN_PROGRESS` and
`AUCTION_COMPLETED` exported by `src/auction.js` (not under `src/` here);
only their distinctness matters to the adapter. -/
def AUCTION_IN_PROGRESS : String := "inProgress"
def AUCTION_COMPLETED : String := "completed"

/-- Modelled from the spec: `TARGETING_KEYS.AD_ID` from the host's
`src/constants.js`. -/
def TARGETING_KEY_AD_ID : String := "hb_adid"

/-- Modelled from the spec: `BID_STATUS.BID_REJECTED` from the host's
`src/constants.js`. -/
def BID_STATUS_BID_REJECTED : String := "bidRejected"

/-- Modelled from the spec: the host video context constants. -/
def INSTREAM : String := "instream"
def OUTSTREAM : String := "outstream"
def ADPOD : String := "adpod"

/-- JS `a || b`. -/
def jsOr (a b : Val) : Val := if a.truthy then a else b

/-- The `Bid` class. Fields that the adapter manipulates structurally
(identifiers, status, the `used` flag, size lists) are typed; the rest are
embedded JS values. -/
structure MBid where
  bidId : String
  bidder : String
  src : Val
  start : Val
  adUnitCode : String
  allMediaTypeSizes : List String
  iwb : Nat
  winner : Nat
  status : Nat
  ext : Val
  originalCpm : Val
  cpm : Val
  dfpbd : Val
  width : Val
  height : Val
  mediaType : Val
  timeToRespond : Val
  dealId : Val
  creativeId : Val
  adId : Val
  currency : Val
  crid : Val
  pubcrid : Val
  mpvid : Val
  floorPrice : Val
  floorRule : Val
  serverLatencyMillis : Val
  used : Bool
  originalRequestId : Val
  requestId : Val
  advUrl : Val
  latestAcid : Val
  originalCurrency : Val
  currMul : Val
  inCurrMul : Val
  res_mtype : Val
  res_sizes : Option (List String)
  req_mtype : Val
deriving Repr

/-- The `Bid` constructor
`new Bid(bidId, bidder, src, start, adUnitCode, mediaType, allMediaTypeSizes, resSizes)`. -/
def mkBid (bidId bidder : String) (src start : Val) (adUnitCode : String)
    (mediaType : Val) (allMediaTypeSizes : List String)
    (resSizes : Option (List String) := none) : MBid :=
  { bidId := bidId,
    bidder := bidder,
    src := src,
    start := start,
    adUnitCode := adUnitCode,
    allMediaTypeSizes := allMediaTypeSizes,
    iwb := 0,
    winner := 0,
    status := if bidder = DUMMY_BIDDER then BID_SUCCESS else BID_TIMEOUT_STATUS,
    ext := .obj [],
    originalCpm := .undefined,
    cpm := .undefined,
    dfpbd := .undefined,
    width := .undefined,
    height := .undefined,
    mediaType := mediaType,
    timeToRespond := .undefined,
    dealId := .undefined,
    creativeId := .undefined,
    adId := .undefined,
    currency := .undefined,
    crid := .undefined,
    pubcrid := .undefined,
    mpvid := .undefined,
    floorPrice := .undefined,
    floorRule := .undefined,
    serverLatencyMillis := .undefined,
    used := false,
    originalRequestId := .str bidId,
    requestId := .undefined,
    advUrl := .undefined,
    latestAcid := .undefined,
    originalCurrency := .undefined,
    currMul := .undefined,
    inCurrMul := .undefined,
    res_mtype := .undefined,
    res_sizes := resSizes,
    req_mtype := mediaType }

/-- The `size` getter: `width + 'x' + height` when both are truthy,
`''` otherwise. -/
def MBid.size (b : MBid) : String :=
  if b.width.truthy && b.height.truthy then
    valToJsString b.width ++ "x" ++ valToJsString b.height
  else ""

/-- The `AdSlot` class. `logged` records the log types already fired. -/
structure MAdSlot where
  tmax : Val
  supplyAdCode : Val
  context : Val
  adext : Val
  logged : List String
  targeting : Val
  medianetPresent : Nat
deriving Repr

/-- The `AdSlot` constructor. -/
def mkAdSlot (tmax supplyAdCode context adext : Val) : MAdSlot :=
  { tmax := tmax,
    supplyAdCode := supplyAdCode,
    context := context,
    adext := adext,
    logged := [],
    targeting := .undefined,
    medianetPresent := 0 }

/-- The `Auction` class (with its `BidWrapper` inlined as the two lists
`bidReqs` and `bidObjs`). -/
structure MAuction where
  acid : String
  status : String
  bidReqs : List MBid
  bidObjs : List MBid
  adSlots : List (String × MAdSlot)
  auctionInitTime : Val
  auctionStartTime : Val
  setTargetingTime : Val
  auctionEndTime : Val
  bidWonTime : Val
  floorData : Val
deriving Repr

/-- The `Auction` constructor `new Auction(acid)`. -/
def mkAuction (acid : String) : MAuction :=
  { acid := acid,
    status := AUCTION_IN_PROGRESS,
    bidReqs := [],
    bidObjs := [],
    adSlots := [],
    auctionInitTime := .undefined,
    auctionStartTime := .undefined,
    setTargetingTime := .undefined,
    auctionEndTime := .undefined,
    bidWonTime := .undefined,
    floorData := .obj [] }

/-- `Auction.hasEnded`. -/
def MAuction.hasEnded (a : MAuction) : Bool := a.status = AUCTION_COMPLETED

/-- `BidWrapper.findReqBid`: first recorded bid request with the given id. -/
def MAuction.findReqBid (a : MAuction) (bidId : String) : Option MBid :=
  a.bidReqs.find? (fun bid => bid.bidId == bidId)

/-- `BidWrapper.findBidObj('bidId', value)`. -/
def MAuction.findBidObjByBidId (a : MAuction) (value : String) : Option MBid :=
  a.bidObjs.find? (fun bid => bid.bidId == value)

/-- `BidWrapper.findBidObj('adId', value)`; JS `===` on the stored value. -/
def MAuction.findBidObjByAdId (a : MAuction) (value : Val) : Option MBid :=
  a.bidObjs.find? (fun bid => bid.adId.seq value)

/-- The `bidReq.used = true` mutation performed by `addBidObj` on the first
request matching the added object's `bidId`. -/
def markUsed (reqs : List MBid) (bidId : String) : List MBid :=
  match reqs with
  | [] => []
  | r :: rest =>
    if r.bidId == bidId then { r with used := true } :: rest
    else r :: markUsed rest bidId

/-- `BidWrapper.addBidObj`: mark the matching request consumed, then push. -/
def MAuction.addBidObj (a : MAuction) (bidObj : MBid) : MAuction :=
  { a with
    bidReqs := markUsed a.bidReqs bidObj.bidId,
    bidObjs := a.bidObjs ++ [bidObj] }

/-- `BidWrapper.addBidReq`. -/
def MAuction.addBid (a : MAuction) (bid : MBid) : MAuction :=
  { a with bidReqs := a.bidReqs ++ [bid] }

/-- `BidWrapper.getAdSlotBidRequests`. -/
def MAuction.getAdSlotBidRequests (a : MAuction) (adSlot : String) : List MBid :=
  a.bidReqs.filter (fun bid => bid.adUnitCode == adSlot)

/-- `BidWrapper.getAdSlotBidResponses`. -/
def MAuction.getAdSlotBidResponses (a : MAuction) (adSlot : String) : List MBid :=
  a.bidObjs.filter (fun bid => bid.adUnitCode == adSlot)

/-- The `Configure` class (the fields `init`/ajax handling reads and
writes). -/
structure MConfigure where
  cid : Val
  pubLper : Val
  ajaxState : Nat
  loggingPercent : Val
  urlToConsume : String
  debug : Bool
  gdprConsent : Val
  gdprApplies : Val
  uspConsent : Val
  shouldBeLogged : List (String × Bool)
  mnetDebugConfig : Val
deriving Repr

/-- The `Configure` constructor `new Configure(cid)`. -/
def mkConfigure (cid : Val) : MConfigure :=
  { cid := cid,
    pubLper := .num (-1),
    ajaxState := CONFIG_PENDING,
    loggingPercent := .num DEFAULT_LOGGING_PERCENT,
    urlToConsume := DEFAULT_URL_KEY,
    debug := false,
    gdprConsent := .undefined,
    gdprApplies := .undefined,
    uspConsent := .undefined,
    shouldBeLogged := [],
    mnetDebugConfig := .str "" }

/-- The `PageDetail` snapshot captured at `enableAnalytics` time; all
fields come from the browser environment. -/
structure MPageDetail where
  domain : Val
  page : Val
  is_top : Val
  referrer : Val
  canonical_url : Val
  og_url : Val
  twitter_url : Val
  topmostLocation : Val
  screen : Val
deriving Repr

/-- `pageDetails[config.urlToConsume]` for the keys `urlToConsume` can
hold (`VALID_URL_KEY` members or `topmostLocation`). -/
def MPageDetail.field (pd : MPageDetail) (key : String) : Val :=
  if key = "canonical_url" then pd.canonical_url
  else if key = "og_url" then pd.og_url
  else if key = "twitter_url" then pd.twitter_url
  else if key = "topmostLocation" then pd.topmostLocation
  else .undefined

/-- The adapter's global state: the module-level `auctions`, `config`,
`pageDetails`, `logsQueue` and `errorQueue`, plus the `Math.random()`
oracle stream and the `Date.now()` clock. -/
structure St where
  auctions : List (String × MAuction)
  config : MConfigure
  pageDetails : MPageDetail
  logsQueue : List String
  errorQueue : List String
  randStream : List Rat
  now : Val
deriving Repr

/-- Update one auction in place, leaving the state unchanged when the
auction id is absent (the code paths exercised here never reach a missing
id; a missing id would throw in JS). -/
def St.updAuction (st : St) (acid : String) (f : MAuction → MAuction) : St :=
  { st with auctions := updKey st.auctions acid f }

/-- `formatQS(data)`: `key=` for undefined values, `JSON.stringify` for
plain-object values, `encodeURIComponent` of the coerced value otherwise,
pairs joined with `'&'`. -/
def pairQS : String × Val → String
  | (key, .undefined) => key ++ "="
  | (key, .obj fields) =>
    key ++ "=" ++ encodeURIComponent ((jsonStringifyVal (.obj fields)).getD "")
  | (key, v) => key ++ "=" ++ encodeURIComponent (valToJsString v)

def formatQS (data : List (String × Val)) : String :=
  String.intercalate "&" (data.map pairQS)

/-- `firePixel(qs)`: appends the endpoint-prefixed URL to `logsQueue`
(and fires the tracking pixel, an external effect). -/
def firePixel (qs : String) (st : St) : St :=
  { st with logsQueue := st.logsQueue ++ [ENDPOINT ++ "&" ++ qs] }

/-- The field list a `new ErrorLogger(event, additionalData)` instance
carries, in property creation order. -/
def errorLoggerFields (st : St) (event : String) (rd : Val) :
    List (String × Val) :=
  [("event", .str event),
   ("logid", .str "kfk"),
   ("evtid", .str "projectevents"),
   ("project", .str "prebidanalytics"),
   ("dn", jsOr st.pageDetails.domain (.str "")),
   ("requrl", jsOr st.pageDetails.topmostLocation (.str "")),
   ("pbversion", .str PREBID_VERSION),
   ("cid", jsOr st.config.cid (.str "")),
   ("rd", rd)]

/-- `ErrorLogger.send()`: appends the event-pixel URL to `errorQueue`
(and fires the pixel, an external effect). -/
def errorLoggerSend (st : St) (event : String) (rd : Val) : St :=
  { st with errorQueue :=
      st.errorQueue ++
        [EVENT_PIXEL_URL ++ "?" ++ formatQS (errorLoggerFields st event rd)] }

/-- `Bid.getLoggingData()`, fields in source order. -/
def MBid.getLoggingData (b : MBid) : List (String × Val) :=
  [("reqId", jsOr b.requestId (.str b.bidId)),
   ("ogReqId", b.originalRequestId),
   ("adid", b.adId),
   ("pvnm", .str b.bidder),
   ("src", b.src),
   ("ogbdp", b.originalCpm),
   ("bdp", b.cpm),
   ("cbdp", b.dfpbd),
   ("dfpbd", b.dfpbd),
   ("szs", .str (String.intercalate "|" b.allMediaTypeSizes)),
   ("size", .str (String.intercalate "|" ((b.res_sizes).getD [b.size]))),
   ("mtype", b.mediaType),
   ("dId", b.dealId),
   ("winner", .num b.winner),
   ("curr", b.currency),
   ("rests", b.timeToRespond),
   ("status", .num b.status),
   ("iwb", .num b.iwb),
   ("crid", b.crid),
   ("pubcrid", b.pubcrid),
   ("mpvid", b.mpvid),
   ("bidflr", b.floorPrice),
   ("flrrule", b.floorRule),
   ("ext", match jsonStringifyVal b.ext with
           | some s => .str s
           | none => .undefined),
   ("rtime", b.serverLatencyMillis),
   ("advurl", b.advUrl),
   ("lacid", b.latestAcid),
   ("icurr", b.originalCurrency),
   ("imul", b.inCurrMul),
   ("omul", b.currMul),
   ("res_mtype", b.res_mtype),
   ("req_mtype", b.req_mtype)]

/-- `AdSlot.getVideoPlacement()`. -/
def MAdSlot.getVideoPlacement (s : MAdSlot) : Nat :=
  if s.context.seq (.str INSTREAM) then 1
  else if s.context.seq (.str OUTSTREAM) then 6
  else if s.context.seq (.str ADPOD) then 7
  else 0

/-- `AdSlot.getLoggingData()`; the `adext` entry is appended only when
`adext` is truthy (`Object.assign` ignores a falsy source). -/
def MAdSlot.getLoggingData (s : MAdSlot) : List (String × Val) :=
  [("supcrid", s.supplyAdCode),
   ("tmax", s.tmax),
   ("targ", match jsonStringifyVal s.targeting with
            | some str => .str str
            | none => .undefined),
   ("ismn", .num s.medianetPresent),
   ("vplcmtt", .num s.getVideoPlacement)] ++
  (if s.adext.truthy then
    [("adext", match jsonStringifyVal s.adext with
               | some str => Val.str str
               | none => Val.undefined)]
   else [])

/-- `Auction._mergeFieldsToLog`. -/
def mergeFieldsToLog (objParams : List (String × Val)) : String :=
  String.intercalate "||" (objParams.map (fun kv =>
    kv.1 ++ "=" ++ (match kv.2 with
                    | .undefined => ""
                    | v => valToJsString v)))

/-- `Auction.getLoggingData()`. -/
def MAuction.getLoggingData (a : MAuction) : List (String × Val) :=
  [("sts", jsSub a.auctionStartTime a.auctionInitTime),
   ("ets", jsSub a.auctionEndTime a.auctionInitTime),
   ("tts", jsSub a.setTargetingTime a.auctionInitTime),
   ("wts", jsSub a.bidWonTime a.auctionInitTime),
   ("aucstatus", .str a.status),
   ("acid", .str a.acid),
   ("flrdata", .str (mergeFieldsToLog
     [("ln", a.floorData.get "location"),
      ("skp", a.floorData.get "skipped"),
      ("enfj", deepAccessVal a.floorData ["enforcements", "enforceJS"]),
      ("enfd", deepAccessVal a.floorData ["enforcements", "floorDeals"]),
      ("sr", a.floorData.get "skipRate"),
      ("fs", a.floorData.get "fetchStatus")])),
   ("flrver", a.floorData.get "modelVersion")]

/-- `Configure.getLoggingData()`. -/
def MConfigure.getLoggingData (c : MConfigure) : List (String × Val) :=
  [("cid", c.cid),
   ("lper", jsMathRound (jsDiv (.num 100) c.loggingPercent)),
   ("plper", c.pubLper),
   ("gdpr", .str (if c.gdprApplies.truthy then "1" else "0")),
   ("gdprConsent", c.gdprConsent),
   ("ccpa", c.uspConsent),
   ("ajx", .num c.ajaxState),
   ("pbv", .str PREBID_VERSION),
   ("pbav", .str ANALYTICS_VERSION),
   ("flt", .num 1),
   ("enableDbf", .num 1)]

/-- `PageDetail.getLoggingData()`. -/
def MPageDetail.getLoggingData (pd : MPageDetail) (urlToConsume : String) :
    List (String × Val) :=
  [("requrl", jsOr (pd.field urlToConsume) pd.topmostLocation),
   ("dn", pd.domain),
   ("ref", pd.referrer),
   ("screen", pd.screen)]

/-- `getCommonLoggingData(acid, adtag)`: the `Object.assign` merge of the
page, config, ad-slot and auction logging data. -/
def getCommonLoggingData (st : St) (acid adtag : String) :
    List (String × Val) :=
  let commonParams := assignPairs
    (st.pageDetails.getLoggingData st.config.urlToConsume)
    st.config.getLoggingData
  let adunitParams :=
    match getKey st.auctions acid with
    | some a =>
      match getKey a.adSlots adtag with
      | some slot => slot.getLoggingData
      | none => []
    | none => []
  let auctionParams :=
    match getKey st.auctions acid with
    | some a => a.getLoggingData
    | none => []
  assignPairs (assignPairs commonParams adunitParams) auctionParams

/-- `v == null` (matches both `null` and `undefined`), as used by the
key-deletion pass of `fireAuctionLog`. -/
def isNullish : Val → Bool
  | .undefined => true
  | .null => true
  | _ => false

/-- The `receivedResponse` bookkeeping of `getResponseSizeMap`: the set of
`(bidId, size)` pairs marked true (the source stores them as a nested
object keyed `bidId.size`). -/
abbrev RespMap := List (String × String)

/-- Second pass of `getResponseSizeMap` over `bidObjs`: every response of
the ad slot with empty `size` gets `res_sizes` set to the sizes not yet
received for its `bidId`, and then marks all its sizes received; the map
grows left to right. -/
def applySizeMap (adtag : String) : RespMap → List MBid → RespMap × List MBid
  | m, [] => (m, [])
  | m, b :: rest =>
    if b.adUnitCode == adtag && b.size == "" then
      let newSizes := b.allMediaTypeSizes.filter
        (fun sz => !(m.contains (b.bidId, sz)))
      let m2 := m ++ b.allMediaTypeSizes.map (fun sz => (b.bidId, sz))
      let (m3, rest') := applySizeMap adtag m2 rest
      (m3, { b with res_sizes := some newSizes } :: rest')
    else
      let (m2, rest') := applySizeMap adtag m rest
      (m2, b :: rest')

/-- `getResponseSizeMap(acid, adtag)` on one auction: returns the received
map and the auction with the `res_sizes` mutations applied. -/
def getResponseSizeMap (a : MAuction) (adtag : String) : RespMap × MAuction :=
  let initial := ((a.getAdSlotBidResponses adtag).filter
    (fun b => b.size ≠ "")).map (fun b => (b.bidId, b.size))
  let (m, objs) := applySizeMap adtag initial a.bidObjs
  (m, { a with bidObjs := objs })

/-- `getDummyBids(acid, adtag, receivedResponse)`. -/
def getDummyBids (a : MAuction) (adtag : String) (receivedResponse : RespMap) :
    List MBid :=
  ((a.getAdSlotBidRequests adtag).filter (fun req =>
    req.bidder ≠ DUMMY_BIDDER ∧
    (req.allMediaTypeSizes.filter
      (fun sz => !(receivedResponse.contains (req.bidId, sz)))) ≠ [])).map
    (fun req =>
      let emptySizes := req.allMediaTypeSizes.filter
        (fun sz => !(receivedResponse.contains (req.bidId, sz)))
      let bid := mkBid req.bidId req.bidder req.src req.start req.adUnitCode
        req.mediaType req.allMediaTypeSizes (some emptySizes)
      { bid with status := if req.status = BID_SUCCESS then BID_NOBID else req.status })

/-- `getLoggingBids(acid, adtag)`: the slot's (mutated) responses followed
by the dummy bids; also returns the auction with the `res_sizes` mutations. -/
def getLoggingBids (a : MAuction) (adtag : String) : MAuction × List MBid :=
  let (receivedResponse, a') := getResponseSizeMap a adtag
  let dummyBids := getDummyBids a' adtag receivedResponse
  (a', a'.getAdSlotBidResponses adtag ++ dummyBids)

/-- The query string fired by `fireAuctionLog` once the common parameters,
per-bid parameters and targeting are fixed: `formatQS(common) & formatQS(bid1)
& … & formatQS({targ})`. -/
def auctionLogQS (commonParams : List (String × Val))
    (bidParams : List (List (String × Val))) (targeting : Val) : String :=
  formatQS commonParams ++ "&" ++
  (bidParams.map (fun bp => formatQS bp ++ "&")).foldl (· ++ ·) "" ++
  formatQS [("targ", targeting)]

/-- The `mnetPresent` filter: when no bid came from the `medianet` bidder,
the `mpvid`, `crid`, `ext` and `pubcrid` keys are dropped from every bid's
parameters. -/
def applyMnetFilter (bidParams : List (List (String × Val))) :
    List (List (String × Val)) :=
  let mnetPresent := bidParams.any (fun bp =>
    (((getKey bp "pvnm").getD .undefined).seq (.str MEDIANET_BIDDER_CODE)))
  if mnetPresent then bidParams
  else bidParams.map (fun bp => bp.filter (fun kv =>
    kv.1 ≠ "mpvid" ∧ kv.1 ≠ "crid" ∧ kv.1 ≠ "ext" ∧ kv.1 ≠ "pubcrid"))

/-- `fireAuctionLog(acid, adtag, logType, adId)`. The `RA` branch fires one
winning-bid log (or nothing when the winning bid object is absent); every
other branch fires one log with the slot's logging bids, after applying the
`res_sizes` mutations of `getResponseSizeMap`. -/
def fireAuctionLog (acid adtag : String) (logType : String) (adId : Val)
    (st : St) : St :=
  let commonParams0 := setKey (getCommonLoggingData st acid adtag) "lgtp"
    (.str logType)
  let targeting := (getKey commonParams0 "targ").getD .undefined
  let commonParams := (commonParams0.filter (fun kv => !(isNullish kv.2))).filter
    (fun kv => kv.1 ≠ "targ")
  match getKey st.auctions acid with
  | none => st
  | some a =>
    if logType == LOG_TYPE_RA then
      match a.findBidObjByAdId adId with
      | none => st
      | some winningBidObj =>
        let bidParams := applyMnetFilter [winningBidObj.getLoggingData]
        let commonParams := setKey commonParams "lper" (.num 1)
        firePixel (auctionLogQS commonParams bidParams targeting) st
    else
      let (a', bids) := getLoggingBids a adtag
      let st1 := st.updAuction acid (fun _ => a')
      let bidParams := applyMnetFilter (bids.map MBid.getLoggingData)
      let commonParams := commonParams.filter (fun kv => kv.1 ≠ "wts")
      firePixel (auctionLogQS commonParams bidParams targeting) st1

/-- `isSampled()`: one `Math.random()` draw compared against
`parseFloat(config.loggingPercent)` (false when the percent parses to NaN). -/
def isSampled (st : St) : Bool × St :=
  let r := st.randStream.headD 0
  let st' := { st with randStream := st.randStream.tail }
  match jsParseFloat st.config.loggingPercent with
  | .num p => (decide (r * 100 < p), st')
  | _ => (false, st')

/-- `AdSlot.getShouldBeLogged(logType)`: the per-log-type sampling decision,
drawn once and cached in `config.shouldBeLogged`. -/
def getShouldBeLogged (logType : String) (st : St) : Bool × St :=
  match getKey st.config.shouldBeLogged logType with
  | some b => (b, st)
  | none =>
    let (b, st') := isSampled st
    (b, { st' with config := { st'.config with
      shouldBeLogged := setKey st'.config.shouldBeLogged logType b } })

/-- `fireApPrLog(auctionId, adUnitName, logType)`. -/
def fireApPrLog (auctionId adUnitName : String) (logType : String) (st : St) :
    St :=
  match (getKey st.auctions auctionId).bind (fun a => getKey a.adSlots adUnitName) with
  | none => st
  | some adSlot =>
    let (should, st1) := getShouldBeLogged logType st
    if should && !(adSlot.logged.contains logType) then
      let st2 := fireAuctionLog auctionId adUnitName logType .undefined st1
      st2.updAuction auctionId (fun a =>
        { a with adSlots := updKey a.adSlots adUnitName (fun s =>
            { s with logged := s.logged ++ [logType] }) })
    else st1

/-- `isValidAuctionAdSlot(acid, adtag)`. -/
def isValidAuctionAdSlot (st : St) (acid adtag : String) : Bool :=
  match getKey st.auctions acid with
  | some a => (getKey a.adSlots adtag).isSome
  | none => false

/-- `sendEvent(id, adunit, logType, adId)`. -/
def sendEvent (id adunit : String) (logType : String) (adId : Val) (st : St) :
    St :=
  if !(isValidAuctionAdSlot st id adunit) then st
  else if logType == LOG_TYPE_RA then fireAuctionLog id adunit logType adId st
  else fireApPrLog id adunit logType st

/-- The external `convertCurrency(price, from, to, false)` collaborator
(from the host's currency library, not under `src/`): an oracle giving
either the converted number or a thrown exception. -/
def ConvFn : Type := Val → Val → Val → Except Unit Rat

/-- `Number.prototype.toFixed(4)`: four decimal places, rounding half away
from zero. -/
def toFixed4 (q : Rat) : String :=
  let aq : Rat := if q < 0 then -q else q
  let a : Nat := ((aq.num * 20000 + (aq.den : Int)) / (2 * (aq.den : Int))).toNat
  let ip := a / 10000
  let fp := a % 10000
  let fpStr := toString fp
  let fpStr := String.mk (List.replicate (4 - fpStr.length) '0') ++ fpStr
  (if q < 0 ∧ a ≠ 0 then "-" else "") ++ toString ip ++ "." ++ fpStr

/-- `exchangeCurrency(price, fromCurrency, toCurrency)`: the converted
value formatted with `toFixed(4)` on success; the input price unchanged
when `convertCurrency` throws (the source also logs a console error). -/
def exchangeCurrency (conv : ConvFn) (price fromCurrency toCurrency : Val) :
    Val :=
  match conv price fromCurrency toCurrency with
  | .ok v => .str (toFixed4 v)
  | .error _ => price

/-- `Object.keys` of an embedded value. -/
def objKeys : Val → List String
  | .obj fields => fields.map (·.1)
  | _ => []

/-- `arr.filter(uniques)`: keep the first occurrence of each element. -/
def dedupFirst (l : List String) : List String :=
  l.foldl (fun acc s => if acc.contains s then acc else acc ++ [s]) []

/-- The `{banner, native, video}` size-string triple built by `_getSizes`. -/
structure SizeObject where
  banner : List String
  native : List String
  video : List String
deriving Repr

/-- `_getSizes(mediaTypes, sizes)`. -/
def _getSizes (mediaTypes sizes : Val) : SizeObject :=
  let banner := jsOr (deepAccessVal mediaTypes ["banner", "sizes"])
    (jsOr sizes (.arr []))
  let native : List Val :=
    if (deepAccessVal mediaTypes ["native"]).truthy then [.arr [.num 1, .num 1]]
    else []
  let playerSize := jsOr (deepAccessVal mediaTypes ["video", "playerSize"])
    (.arr [])
  let video : List Val :=
    match playerSize with
    | .arr es => if es.length = 2 then [.arr es] else []
    | _ => []
  { banner := (match banner with
               | .arr es => es
               | _ => []).map (jsArrayJoin "x"),
    native := native.map (jsArrayJoin "x"),
    video := video.map (jsArrayJoin "x") }

/-- One ad unit as passed in `AUCTION_INIT.adUnits`. -/
structure MAdUnit where
  code : String
  adUnitCode : Val
  mediaTypes : Val
  sizes : Val
  ext : Val
deriving Repr

/-- The per-group fold of `addAddSlots`: accumulates `adext`, `context`,
the media-type key map and the banner/video size lists over the grouped ad
units. -/
def processGroup (group : List MAdUnit) :
    Val × Val × List String × List String × List String :=
  group.foldl (fun acc u =>
    let (adext, context, mtKeys, ban, vid) := acc
    let mediaTypes := jsOr u.mediaTypes (.obj [])
    let src := jsOr u.ext (deepAccessVal mediaTypes ["banner", "ext"])
    let adext2 := match adext, src with
      | .obj tfs, .obj sfs => Val.obj (assignPairs tfs sfs)
      | _, _ => adext
    let context2 := jsOr (deepAccessVal mediaTypes ["video", "context"]) context
    let mtKeys2 := dedupFirst (mtKeys ++ objKeys mediaTypes)
    let so := _getSizes mediaTypes u.sizes
    (adext2, context2, mtKeys2, ban ++ so.banner, vid ++ so.video))
    (.obj [], .str "", [], [], [])

/-- `Auction.addSlot`: create the ad slot and its dummy bid object once per
ad-unit code. -/
def MAuction.addSlot (a : MAuction) (adUnitCode : String) (supplyAdCode : Val)
    (mediaTypes : Val) (allMediaTypeSizes : List String)
    (context tmax adext : Val) (now : Val) : MAuction :=
  if adUnitCode != "" && (getKey a.adSlots adUnitCode).isNone then
    ({ a with adSlots :=
        a.adSlots ++ [(adUnitCode, mkAdSlot tmax supplyAdCode context adext)] }).addBidObj
      (mkBid "-1" DUMMY_BIDDER (.str "client") now adUnitCode mediaTypes
        allMediaTypeSizes)
  else a

/-- `addAddSlots(auctionId, adUnits, tmax)`: group the ad units by `code`
(first-occurrence order, as the host's `groupBy` does) and add one slot per
group. -/
def addAddSlots (auctionId : String) (adUnits : List MAdUnit) (tmax : Val)
    (st : St) : St :=
  let codes := dedupFirst (adUnits.map (·.code))
  codes.foldl (fun st code =>
    let group := adUnits.filter (fun u => u.code == code)
    let supplyAdCode := jsOr
      (match group.head? with
       | some u => u.adUnitCode
       | none => .undefined) (.str code)
    let (adext, context, mtKeys, ban, vid) := processGroup group
    let adextF := match adext with
      | .obj [] => Val.undefined
      | v => v
    let banner := dedupFirst ban
    let video := dedupFirst vid
    let native := if mtKeys.contains "native" then ["1x1"] else []
    let allMediaTypeSizes := banner ++ native ++ video
    let mediaTypesStr := Val.str (String.intercalate "|" mtKeys)
    st.updAuction auctionId (fun a =>
      a.addSlot code supplyAdCode mediaTypesStr allMediaTypeSizes context tmax
        adextF st.now)) st

/-- The `AUCTION_INIT` event arguments. -/
structure AuctionInitArgs where
  auctionId : String
  adUnits : List MAdUnit
  timeout : Val
  timestamp : Val
  bidderRequests : Val
deriving Repr

/-- The fresh auction entry `auctionInitHandler` stores: a `new Auction`
whose `auctionInitTime` is then set to the event timestamp. -/
def newInitAuction (id : String) (ts : Val) : MAuction :=
  { mkAuction id with auctionInitTime := ts }

/-- The creation statement of `auctionInitHandler`:
`if (auctionId && auctions[auctionId] === undefined) auctions[auctionId] = …`. -/
def auctionInitCreate (args : AuctionInitArgs) (st : St) : St :=
  if args.auctionId != "" && (getKey st.auctions args.auctionId).isNone then
    { st with auctions := setKey st.auctions args.auctionId (newInitAuction args.auctionId args.timestamp) }
  else st

/-- The floor-data statement of `auctionInitHandler`. -/
def auctionInitFloor (args : AuctionInitArgs) (st : St) : St :=
  if (deepAccessVal args.bidderRequests ["0", "bids", "0", "floorData"]).truthy then
    st.updAuction args.auctionId (fun a =>
      { a with floorData := deepAccessVal args.bidderRequests ["0", "bids", "0", "floorData"] })
  else st

/-- `auctionInitHandler`. -/
def auctionInitHandler (args : AuctionInitArgs) (st : St) : St :=
  auctionInitFloor args
    (addAddSlots args.auctionId args.adUnits args.timeout
      (auctionInitCreate args st))

/-- One entry of the `BID_REQUESTED.bids` array. -/
structure ReqBid where
  adUnitCode : String
  bidder : String
  bidId : String
  src : Val
  mediaTypes : Val
  sizes : Val
  params : Val
deriving Repr

/-- The `BID_REQUESTED` event arguments. -/
structure BidRequestedArgs where
  auctionId : String
  auctionStart : Val
  bids : List ReqBid
  start : Val
  uspConsent : Val
  gdpr : Val
deriving Repr

/-- `bidRequestedHandler`. -/
def bidRequestedHandler (args : BidRequestedArgs) (st : St) : St :=
  match getKey st.auctions args.auctionId with
  | none => st
  | some _ =>
    let gdprApplies := args.gdpr.truthy && (args.gdpr.get "gdprApplies").truthy
    let config1 := { st.config with gdprApplies := .boolean gdprApplies }
    let config2 :=
      if gdprApplies then
        { config1 with gdprConsent := jsOr (args.gdpr.get "consentString") (.str "") }
      else config1
    let config3 := { config2 with uspConsent := jsOr config2.uspConsent args.uspConsent }
    let st1 := { st with config := config3 }
    let st2 := st1.updAuction args.auctionId (fun a =>
      { a with auctionStartTime := args.auctionStart })
    args.bids.foldl (fun st bid =>
      let sizeObject := _getSizes bid.mediaTypes bid.sizes
      let requestSizes := sizeObject.banner ++ sizeObject.native ++ sizeObject.video
      let mtVal :=
        if bid.mediaTypes.truthy then
          Val.str (String.intercalate "|" (objKeys bid.mediaTypes))
        else bid.mediaTypes
      let bidObj := mkBid bid.bidId bid.bidder bid.src args.start bid.adUnitCode
        mtVal requestSizes
      let bidObj :=
        if bid.bidder = MEDIANET_BIDDER_CODE then
          { bidObj with
            crid := deepAccessVal bid.params ["crid"],
            pubcrid := deepAccessVal bid.params ["crid"] }
        else bidObj
      let st' := st.updAuction args.auctionId (fun a => a.addBid bidObj)
      if bid.bidder = MEDIANET_BIDDER_CODE then
        st'.updAuction args.auctionId (fun a =>
          { a with adSlots := updKey a.adSlots bid.adUnitCode (fun s =>
              { s with medianetPresent := 1 }) })
      else st') st2

/-- The `BID_RESPONSE` event arguments. The `granularityBucket` field is
modelled from the spec: it stands for `bid[PRICE_GRANULARITY[getPriceGranularity(bid)]]`,
the price-granularity bucket computed by the host (`getPriceGranularity`
lives in the host's `src/auction.js`, not under `src/`). -/
structure BidResponseArgs where
  width : Val
  height : Val
  mediaType : Val
  cpm : Val
  requestId : String
  timeToRespond : Val
  auctionId : String
  dealId : Val
  originalRequestId : Val
  bidder : String
  meta : Val
  originalCpm : Val
  creativeId : Val
  adId : Val
  currency : Val
  originalCurrency : Val
  floorData : Val
  adserverTargeting : Val
  granularityBucket : Val
  status : Val
  ext : Val
  serverResponseTimeMs : Val
deriving Repr

/-- The bid object produced by `bidResponseHandler`'s sequence of
`Object.assign` and field assignments, starting from the matched request
(all of whose own fields the first assign copies). -/
def applyResponse (bidReq : MBid) (args : BidResponseArgs) (conv : ConvFn) :
    MBid :=
  let currency :=
    if args.currency.truthy then Val.str ((valToJsString args.currency).toUpper)
    else Val.str ""
  let originalCurrency :=
    if args.originalCurrency.truthy then
      Val.str ((valToJsString args.originalCurrency).toUpper)
    else currency
  let advUrl :=
    if args.meta.truthy then
      let ad := args.meta.get "advertiserDomains"
      if ad.truthy then Val.str (jsArrayJoin "," ad) else ad
    else args.meta
  let b := { bidReq with
    cpm := args.cpm,
    width := args.width,
    height := args.height,
    mediaType := args.mediaType,
    timeToRespond := args.timeToRespond,
    dealId := args.dealId,
    creativeId := args.creativeId,
    originalRequestId := args.originalRequestId,
    requestId := .str args.requestId,
    adId := args.adId,
    currency := currency,
    originalCurrency := originalCurrency,
    floorPrice := deepAccessVal args.floorData ["floorValue"],
    floorRule := deepAccessVal args.floorData ["floorRule"],
    originalCpm := jsOr args.originalCpm args.cpm,
    advUrl := advUrl,
    currMul := .num 1,
    inCurrMul := .num 1 }
  let b :=
    if !(b.originalCurrency.seq (.str "USD")) then
      { b with
        originalCpm := exchangeCurrency conv b.originalCpm b.originalCurrency (.str "USD"),
        inCurrMul := exchangeCurrency conv (.num 1) (.str "USD") b.originalCurrency }
    else b
  let b :=
    if !(b.currency.seq (.str "USD")) then
      { b with
        cpm := exchangeCurrency conv b.cpm b.currency (.str "USD"),
        currMul := exchangeCurrency conv (.num 1) (.str "USD") b.currency }
    else b
  let dfpbd0 := deepAccessVal args.adserverTargeting ["hb_pb"]
  let dfpbd := if dfpbd0.truthy then dfpbd0 else jsOr args.granularityBucket args.cpm
  let b := { b with dfpbd := dfpbd }
  let b :=
    if args.status.seq (.str BID_STATUS_BID_REJECTED) then
      { b with status := BID_FLOOR_REJECTED }
    else
      { b with status := BID_SUCCESS }
  let b :=
    if args.bidder = MEDIANET_BIDDER_CODE &&
        (match args.ext with
         | .obj _ => true
         | .arr _ => true
         | _ => false) then
      let b1 := { b with ext := args.ext, mpvid := args.ext.get "pvid" }
      if (args.ext.get "crid").truthy then { b1 with crid := args.ext.get "crid" }
      else b1
    else b
  let b :=
    match args.serverResponseTimeMs with
    | .undefined => b
    | v => { b with serverLatencyMillis := v }
  { b with res_mtype := args.mediaType }

/-- Replace the first bid object whose `bidId` matches (the in-place
`Object.assign` on the found object). -/
def replaceFirstByBidId : List MBid → String → MBid → List MBid
  | [], _, _ => []
  | b :: rest, bidId, nb =>
    if b.bidId == bidId then nb :: rest
    else b :: replaceFirstByBidId rest bidId nb

/-- Replace the first bid object whose `adId` matches. -/
def replaceFirstByAdId : List MBid → Val → MBid → List MBid
  | [], _, _ => []
  | b :: rest, v, nb =>
    if b.adId.seq v then nb :: rest
    else b :: replaceFirstByAdId rest v nb

/-- `bidResponseHandler`. -/
def bidResponseHandler (conv : ConvFn) (args : BidResponseArgs) (st : St) :
    St :=
  match getKey st.auctions args.auctionId with
  | none => st
  | some a =>
    let reqIdV := jsOr args.originalRequestId (.str args.requestId)
    let bidReq? :=
      match reqIdV with
      | .str s => a.findReqBid s
      | _ => none
    match bidReq? with
    | none => st
    | some bidReq =>
      let bidObj0 := a.findBidObjByBidId args.requestId
      let isBidOverridden :=
        match bidObj0 with
        | some b0 => b0.status != BID_SUCCESS
        | none => false
      let newBid := applyResponse bidReq args conv
      if isBidOverridden then
        st.updAuction args.auctionId (fun a =>
          { a with bidObjs := replaceFirstByBidId a.bidObjs args.requestId newBid })
      else
        st.updAuction args.auctionId (fun a => a.addBidObj newBid)

/-- The `NO_BID` event arguments. -/
structure NoBidArgs where
  auctionId : String
  bidId : String
deriving Repr

/-- `noBidResponseHandler`. -/
def noBidResponseHandler (args : NoBidArgs) (st : St) : St :=
  match getKey st.auctions args.auctionId with
  | none => st
  | some a =>
    if a.hasEnded then st
    else
      match a.findReqBid args.bidId with
      | none => st
      | some bidReq =>
        if bidReq.used then st
        else
          st.updAuction args.auctionId (fun a =>
            a.addBidObj { bidReq with status := BID_NOBID })

/-- One entry of the `BID_TIMEOUT` event array. -/
structure TimeoutBid where
  bidId : String
  auctionId : String
deriving Repr

/-- One iteration of `bidTimeoutHandler`'s map. -/
def bidTimeoutStep (tb : TimeoutBid) (st : St) : St :=
  match getKey st.auctions tb.auctionId with
  | none => st
  | some a =>
    match a.findReqBid tb.bidId with
    | none => st
    | some bidReq =>
      if bidReq.used then st
      else
        st.updAuction tb.auctionId (fun a =>
          a.addBidObj { bidReq with status := BID_TIMEOUT_STATUS })

/-- `bidTimeoutHandler`. -/
def bidTimeoutHandler (timedOutBids : List TimeoutBid) (st : St) : St :=
  timedOutBids.foldl (fun st tb => bidTimeoutStep tb st) st

/-- The `AUCTION_END` event arguments. -/
structure AuctionEndArgs where
  auctionId : String
  auctionEnd : Val
deriving Repr

/-- `auctionEndHandler`. -/
def auctionEndHandler (args : AuctionEndArgs) (st : St) : St :=
  match getKey st.auctions args.auctionId with
  | none => st
  | some _ =>
    st.updAuction args.auctionId (fun a =>
      { a with status := AUCTION_COMPLETED, auctionEndTime := args.auctionEnd })

/-- `key.indexOf(pat) !== -1`. -/
def strContains (s pat : String) : Bool :=
  decide (pat.data <:+: s.data)

/-- The body of `setTargetingHandler`'s inner loop for one ad unit and one
auction id. -/
def setTargetingStep (adunit : String) (targ : Val) (acid : String) (st : St) :
    St :=
  match getKey st.auctions acid with
  | none => st
  | some auctionObj =>
    match getKey auctionObj.adSlots adunit with
    | none => st
    | some _ =>
      let st1 := st.updAuction acid (fun a =>
        { a with
          adSlots := updKey a.adSlots adunit (fun s => { s with targeting := targ }),
          setTargetingTime := st.now })
      let targFields : List (String × Val) :=
        match targ with
        | .obj fs => fs
        | _ => []
      let targetingObj := targFields.filter
        (fun kv => strContains kv.1 TARGETING_KEY_AD_ID)
      let winnerAdId := targ.get TARGETING_KEY_AD_ID
      let bidAdIds := targetingObj.map (·.2)
      let st2 := st1.updAuction acid (fun a =>
        { a with bidObjs := a.bidObjs.map (fun b =>
            if bidAdIds.any (fun v => b.adId.seq v) then { b with iwb := 1 }
            else b) })
      let winningBid :=
        match getKey st2.auctions acid with
        | some a => (a.bidObjs.filter (fun (b : MBid) =>
            bidAdIds.any (fun v => b.adId.seq v) && b.adId.seq winnerAdId)).getLast?
        | none => none
      let wWidth := match winningBid with
        | some b => b.width
        | none => .undefined
      let wHeight := match winningBid with
        | some b => b.height
        | none => .undefined
      let st3 := st2.updAuction acid (fun a =>
        { a with bidObjs := a.bidObjs.map (fun b =>
            if b.bidder = DUMMY_BIDDER && b.adUnitCode = adunit then
              { b with
                iwb := if bidAdIds.length = 0 then 0 else 1,
                width := wWidth,
                height := wHeight }
            else b) })
      sendEvent acid adunit LOG_TYPE_APPR .undefined st3

/-- `setTargetingHandler`: for each ad-unit key of the targeting params and
each known auction, record the targeting, mark winning bids and fire the
`APPR` log. -/
def setTargetingHandler (params : List (String × Val)) (st : St) : St :=
  params.foldl (fun st kv =>
    (st.auctions.map (·.1)).foldl (fun st acid =>
      setTargetingStep kv.1 kv.2 acid st) st) st

/-- The `BID_WON` event arguments. -/
structure BidWonArgs where
  auctionId : String
  adUnitCode : String
  adId : Val
  bidder : Val
  requestId : Val
  originalRequestId : Val
  latestTargetedAuctionId : Val
deriving Repr

/-- The `additionalData` object of the two `bidWonHandler` error pixels. -/
def bidWonErrorRd (args : BidWonArgs) : Val :=
  .obj [("adId", args.adId),
        ("auctionId", .str args.auctionId),
        ("adUnitCode", .str args.adUnitCode),
        ("bidder", args.bidder),
        ("requestId", args.requestId),
        ("originalRequestId", args.originalRequestId)]

/-- `bidWonHandler`. -/
def bidWonHandler (args : BidWonArgs) (st : St) : St :=
  match getKey st.auctions args.auctionId with
  | none => errorLoggerSend st ERROR_WINNING_AUCTION_MISSING (bidWonErrorRd args)
  | some a =>
    match a.findBidObjByAdId args.adId with
    | none => errorLoggerSend st ERROR_WINNING_BID_ABSENT (bidWonErrorRd args)
    | some bidObj =>
      let newBid := { bidObj with
        latestAcid := args.latestTargetedAuctionId,
        winner := 1 }
      let st1 := st.updAuction args.auctionId (fun a =>
        { a with
          bidObjs := replaceFirstByAdId a.bidObjs args.adId newBid,
          bidWonTime := st.now })
      sendEvent args.auctionId args.adUnitCode LOG_TYPE_RA bidObj.adId st1

/-- A host lifecycle event as dispatched by `medianetAnalytics.track`;
`other` covers every event type outside the adapter's switch. -/
inductive Event where
  | auctionInit (args : AuctionInitArgs) : Event
  | bidRequested (args : BidRequestedArgs) : Event
  | bidResponse (args : BidResponseArgs) : Event
  | bidTimeout (args : List TimeoutBid) : Event
  | noBid (args : NoBidArgs) : Event
  | auctionEnd (args : AuctionEndArgs) : Event
  | setTargeting (args : List (String × Val)) : Event
  | bidWon (args : BidWonArgs) : Event
  | other (eventType : String) (args : Val) : Event

/-- `medianetAnalytics.track({eventType, args})` (the debug branch only
writes to the console). -/
def track (conv : ConvFn) (e : Event) (st : St) : St :=
  match e with
  | .auctionInit args => auctionInitHandler args st
  | .bidRequested args => bidRequestedHandler args st
  | .bidResponse args => bidResponseHandler conv args st
  | .bidTimeout args => bidTimeoutHandler args st
  | .noBid args => noBidResponseHandler args st
  | .auctionEnd args => auctionEndHandler args st
  | .setTargeting args => setTargetingHandler args st
  | .bidWon args => bidWonHandler args st
  | .other _ _ => st

/-- Property read that throws a TypeError value on `null`/`undefined`
bases, for the `Except Val` pipeline of `_parseResponse`. -/
def jsGetPropE (v : Val) (key : String) : Except Val Val :=
  match jsGetProp v key with
  | .ok w => .ok w
  | .error _ => .error (.str "TypeError")

/-- `Configure.setDataFromResponse(response)`: adopt `response.percentage`
as the logging percent when `parseInt(response.percentage, 10)` is not NaN. -/
def setDataFromResponse (v : Val) (c : MConfigure) : Except Val MConfigure := do
  let p ← jsGetPropE v "percentage"
  match jsParseInt p with
  | .num _ => pure { c with loggingPercent := p }
  | _ => pure c

/-- `Configure.overrideDomainLevelData(response)`: the per-domain override
under `response.domain.<pageDetails.domain>` (a `deepAccess` walk, safe). -/
def overrideDomainLevelData (v : Val) (domain : Val) (c : MConfigure) :
    Except Val MConfigure :=
  let d := deepAccessVal v (("domain." ++ valToJsString domain).splitOn ".")
  if d.truthy then setDataFromResponse d c else pure c

/-- `Configure.overrideToDebug(this.mnetDebugConfig)`: its own try/catch
swallows both decode and parse failures; `debugParse` is the external
`JSON.parse(decodeURIComponent(...))` outcome. -/
def overrideToDebug (debugParse : Except Val Val) (c : MConfigure) :
    MConfigure :=
  if c.mnetDebugConfig.seq (.str "") then c
  else
    match debugParse with
    | .ok v =>
      match setDataFromResponse v c with
      | .ok c' => c'
      | .error _ => c
    | .error _ => c

/-- `Configure._parseResponse(response)`. `parsed` is the outcome of the
external `JSON.parse(response)`; `debugParse` the one used by
`overrideToDebug`. The catch branch sets `ajaxState` to `CONFIG_ERROR` and
sends one `ERROR_CONFIG_JSON_PARSE` pixel; being a total function, it
never propagates the exception. -/
def _parseResponse (parsed debugParse : Except Val Val) (st : St) : St :=
  let body : Except Val MConfigure := do
    let v ← parsed
    let c1 ← setDataFromResponse v st.config
    let c2 ← overrideDomainLevelData v st.pageDetails.domain c1
    let c3 := overrideToDebug debugParse c2
    let urlKey ← jsGetPropE v "urlKey"
    let newUrl := match urlKey with
      | .str s => if VALID_URL_KEY.contains s then s else c3.urlToConsume
      | _ => c3.urlToConsume
    pure { c3 with urlToConsume := newUrl, ajaxState := CONFIG_PASS }
  match body with
  | .ok c => { st with config := c }
  | .error e =>
    let st1 := { st with config := { st.config with ajaxState := CONFIG_ERROR } }
    errorLoggerSend st1 ERROR_CONFIG_JSON_PARSE e

/-- `Configure._errorFetch()`. -/
def _errorFetch (st : St) : St :=
  let st1 := { st with config := { st.config with ajaxState := CONFIG_ERROR } }
  errorLoggerSend st1 ERROR_CONFIG_FETCH .undefined

/-- The URL flags `Configure.init()` inspects on the topmost location. -/
structure InitEnv where
  medianetTest : Val
  hostname : String
  mnetSetconfig : Val
deriving Repr

/-- `Configure.init()` (synchronous part: the debug overrides; the ajax
fetch is asynchronous and lands later via `_parseResponse`/`_errorFetch`). -/
def configInit (env : InitEnv) (c : MConfigure) : MConfigure :=
  if env.medianetTest.truthy || env.hostname = "localhost" then
    { c with loggingPercent := .num 100, ajaxState := CONFIG_PASS, debug := true }
  else if env.mnetSetconfig.truthy then
    { c with mnetDebugConfig := env.mnetSetconfig }
  else c

/-- The module state `enableAnalytics` touches: the global
`medianetGlobals.analyticsEnabled` flag, the module-level `pageDetails`
and `config` (absent before a successful enable), and the delegation to
the adapter's original `enableAnalytics` recorded with its argument. -/
structure EnableState where
  analyticsEnabled : Bool
  pageDetails : Option MPageDetail
  config : Option MConfigure
  delegated : Option Val
deriving Repr

/-- The `configuration.options.sampling = 1` mutation. -/
def setOptionsSampling (configuration : Val) : Val :=
  match configuration with
  | .obj fs => .obj (updKey fs "options" (fun opts =>
      match opts with
      | .obj ofs => .obj (setKey ofs "sampling" (.num 1))
      | o => o))
  | v => v

/-- `medianetAnalytics.enableAnalytics(configuration)`: reject (with a
console error only) any configuration missing `options.cid`; otherwise set
the global flag, snapshot the page, build and init the config, force
`options.sampling` to 1 and delegate. -/
def enableAnalytics (configuration : Val) (pd : MPageDetail)
    (initEnv : InitEnv) (es : EnableState) : EnableState :=
  if !configuration.truthy || !(configuration.get "options").truthy ||
      !((configuration.get "options").get "cid").truthy then
    es
  else
    let opts := configuration.get "options"
    let cfg0 := mkConfigure (opts.get "cid")
    let cfg1 := { cfg0 with pubLper := jsOr (opts.get "sampling") (.str "") }
    let cfg2 := configInit initEnv cfg1
    { analyticsEnabled := true,
      pageDetails := some pd,
      config := some cfg2,
      delegated := some (setOptionsSampling configuration) }

end Medianet

/-! ### Shared ordered-map lemmas -/

theorem getKey_setKey {α : Type} (l : List (String × α)) (k : String) (v : α)
    (k' : String) :
    getKey (setKey l k v) k' = if k' == k then some v else getKey l k' := by
  induction l with
  | nil =>
    by_cases h : k' = k
    · subst h
      simp [setKey, getKey]
    · have h' : ¬(k = k') := fun he => h he.symm
      simp [setKey, getKey, h, h']
  | cons kv rest ih =>
    obtain ⟨k0, v0⟩ := kv
    by_cases h0 : k0 = k
    · subst h0
      by_cases h1 : k' = k0
      · subst h1
        simp [setKey, getKey]
      · have h1' : ¬(k0 = k') := fun he => h1 he.symm
        simp [setKey, getKey, h1, h1']
    · by_cases h1 : k' = k0
      · subst h1
        have h2 : ¬(k' = k) := h0
        simp [setKey, getKey, h0, h2]
      · have h1' : ¬(k0 = k') := fun he => h1 he.symm
        simp [setKey, getKey, h0, h1, h1', ih]

theorem getKey_updKey {α : Type} (l : List (String × α)) (k : String)
    (f : α → α) (k' : String) :
    getKey (updKey l k f) k' =
      if k' == k then (getKey l k').map f else getKey l k' := by
  induction l with
  | nil =>
    by_cases h : k' = k
    · subst h
      simp [updKey, getKey]
    · simp [updKey, getKey, h]
  | cons kv rest ih =>
    obtain ⟨k0, v0⟩ := kv
    by_cases h0 : k0 = k
    · subst h0
      by_cases h1 : k' = k0
      · subst h1
        simp [updKey, getKey]
      · have h1' : ¬(k0 = k') := fun he => h1 he.symm
        simp [updKey, getKey, h1, h1', ih]
    · by_cases h1 : k' = k0
      · subst h1
        have h2 : ¬(k' = k) := h0
        simp [updKey, getKey, h0, h2]
      · have h1' : ¬(k0 = k') := fun he => h1 he.symm
        simp [updKey, getKey, h0, h1, h1', ih]

namespace Medianet

/-- C3: `medianetAnalytics.track` dispatches only on the eight lifecycle
event types AUCTION_INIT, BID_REQUESTED, BID_RESPONSE, BID_TIMEOUT, NO_BID,
AUCTION_END, SET_TARGETING and BID_WON (each routed to its handler), and
for every event of any other type the adapter's state — the auctions map,
`logsQueue` and `errorQueue` included — is left unchanged, so no log is
fired. -/
theorem medianet_track_dispatch (conv : ConvFn) :
    (∀ (eventType : String) (args : Val) (st : St),
      track conv (.other eventType args) st = st) ∧
    (∀ args st, track conv (.auctionInit args) st = auctionInitHandler args st) ∧
    (∀ args st, track conv (.bidRequested args) st = bidRequestedHandler args st) ∧
    (∀ args st, track conv (.bidResponse args) st = bidResponseHandler conv args st) ∧
    (∀ args st, track conv (.bidTimeout args) st = bidTimeoutHandler args st) ∧
    (∀ args st, track conv (.noBid args) st = noBidResponseHandler args st) ∧
    (∀ args st, track conv (.auctionEnd args) st = auctionEndHandler args st) ∧
    (∀ args st, track conv (.setTargeting args) st = setTargetingHandler args st) ∧
    (∀ args st, track conv (.bidWon args) st = bidWonHandler args st) :=
  ⟨fun _ _ _ => rfl, fun _ _ => rfl, fun _ _ => rfl, fun _ _ => rfl,
   fun _ _ => rfl, fun _ _ => rfl, fun _ _ => rfl, fun _ _ => rfl,
   fun _ _ => rfl⟩

/-- The auction fields `auctionInitHandler`'s claim is about: identity,
status and init time. -/
def aucSig (a : MAuction) : String × String × Val :=
  (a.acid, a.status, a.auctionInitTime)

theorem addSlot_aucSig (a : MAuction) (code : String) (s m : Val)
    (sizes : List String) (c t e now : Val) :
    aucSig (a.addSlot code s m sizes c t e now) = aucSig a := by
  unfold MAuction.addSlot
  split
  · rfl
  · rfl

theorem updAuction_aucSig (st : St) (id : String) (f : MAuction → MAuction)
    (hf : ∀ a, aucSig (f a) = aucSig a) (k : String) :
    (getKey (st.updAuction id f).auctions k).map aucSig =
      (getKey st.auctions k).map aucSig := by
  show (getKey (updKey st.auctions id f) k).map aucSig = _
  rw [getKey_updKey]
  by_cases h : k = id
  · simp only [h, beq_self_eq_true, if_true]
    cases getKey st.auctions id with
    | none => rfl
    | some a => simp [hf a]
  · simp [h]

theorem updAuction_other (st : St) (id : String) (f : MAuction → MAuction)
    (k : String) (hk : k ≠ id) :
    getKey (st.updAuction id f).auctions k = getKey st.auctions k := by
  show getKey (updKey st.auctions id f) k = _
  rw [getKey_updKey]
  simp [hk]

theorem addAddSlots_aucSig (id : String) (units : List MAdUnit) (tmax : Val)
    (st : St) (k : String) :
    (getKey (addAddSlots id units tmax st).auctions k).map aucSig =
      (getKey st.auctions k).map aucSig := by
  unfold addAddSlots
  generalize dedupFirst (units.map (fun u => u.code)) = codes
  induction codes generalizing st with
  | nil => rfl
  | cons c rest ih =>
    simp only [List.foldl]
    rw [ih]
    exact updAuction_aucSig st id _ (fun a => addSlot_aucSig a _ _ _ _ _ _ _ _) k

theorem addAddSlots_other (id : String) (units : List MAdUnit) (tmax : Val)
    (st : St) (k : String) (hk : k ≠ id) :
    getKey (addAddSlots id units tmax st).auctions k = getKey st.auctions k := by
  unfold addAddSlots
  generalize dedupFirst (units.map (fun u => u.code)) = codes
  induction codes generalizing st with
  | nil => rfl
  | cons c rest ih =>
    simp only [List.foldl]
    rw [ih]
    exact updAuction_other st id _ k hk

theorem auctionInitFloor_aucSig (args : AuctionInitArgs) (st : St)
    (k : String) :
    (getKey (auctionInitFloor args st).auctions k).map aucSig =
      (getKey st.auctions k).map aucSig := by
  unfold auctionInitFloor
  split
  · exact updAuction_aucSig st args.auctionId
      (fun a => { a with floorData := deepAccessVal args.bidderRequests ["0", "bids", "0", "floorData"] })
      (fun a => rfl) k
  · rfl

theorem auctionInitFloor_other (args : AuctionInitArgs) (st : St) (k : String)
    (hk : k ≠ args.auctionId) :
    getKey (auctionInitFloor args st).auctions k = getKey st.auctions k := by
  unfold auctionInitFloor
  split
  · exact updAuction_other st _ _ k hk
  · rfl

/-- C4: an `AUCTION_INIT` with an auctionId not yet in the auctions map
creates exactly one new `Auction` entry under that id, with status
`AUCTION_IN_PROGRESS` and `auctionInitTime` set to the event's timestamp;
for an already-present auctionId the entry's identity, status and
`auctionInitTime` are preserved (the entry is not replaced); entries under
every other key are untouched. -/
theorem medianet_auctionInit_creates_once (args : AuctionInitArgs) (st : St) :
    (getKey st.auctions args.auctionId = none → args.auctionId ≠ "" →
      ∃ a, getKey (auctionInitHandler args st).auctions args.auctionId = some a ∧
        a.acid = args.auctionId ∧
        a.status = AUCTION_IN_PROGRESS ∧
        a.auctionInitTime = args.timestamp) ∧
    (∀ a0, getKey st.auctions args.auctionId = some a0 →
      ∃ a, getKey (auctionInitHandler args st).auctions args.auctionId = some a ∧
        a.acid = a0.acid ∧
        a.status = a0.status ∧
        a.auctionInitTime = a0.auctionInitTime) ∧
    (∀ k, k ≠ args.auctionId →
      getKey (auctionInitHandler args st).auctions k = getKey st.auctions k) := by
  refine ⟨?_, ?_, ?_⟩
  · intro hnone hne
    have hc : (args.auctionId != "" &&
        (getKey st.auctions args.auctionId).isNone) = true := by
      simp [hnone, hne]
    have hcreate : getKey (auctionInitCreate args st).auctions args.auctionId =
        some (newInitAuction args.auctionId args.timestamp) := by
      unfold auctionInitCreate
      rw [if_pos hc]
      show getKey (setKey st.auctions _ _) _ = _
      rw [getKey_setKey]
      simp
    have hsig : (getKey (auctionInitHandler args st).auctions
        args.auctionId).map aucSig =
        some (aucSig (newInitAuction args.auctionId args.timestamp)) := by
      show (getKey (auctionInitFloor args (addAddSlots args.auctionId
        args.adUnits args.timeout (auctionInitCreate args st))).auctions
        args.auctionId).map aucSig = _
      rw [auctionInitFloor_aucSig, addAddSlots_aucSig, hcreate]
      rfl
    cases hx : getKey (auctionInitHandler args st).auctions args.auctionId with
    | none =>
      rw [hx] at hsig
      exact Option.noConfusion hsig
    | some a =>
      rw [hx] at hsig
      simp only [Option.map_some', Option.some.injEq] at hsig
      exact ⟨a, rfl, congrArg (fun p => p.1) hsig,
        congrArg (fun p => p.2.1) hsig, congrArg (fun p => p.2.2) hsig⟩
  · intro a0 hsome
    have hcreate : auctionInitCreate args st = st := by
      unfold auctionInitCreate
      rw [if_neg (by simp [hsome])]
    have hsig : (getKey (auctionInitHandler args st).auctions
        args.auctionId).map aucSig = some (aucSig a0) := by
      show (getKey (auctionInitFloor args (addAddSlots args.auctionId
        args.adUnits args.timeout (auctionInitCreate args st))).auctions
        args.auctionId).map aucSig = _
      rw [auctionInitFloor_aucSig, addAddSlots_aucSig, hcreate, hsome]
      rfl
    cases hx : getKey (auctionInitHandler args st).auctions args.auctionId with
    | none =>
      rw [hx] at hsig
      exact Option.noConfusion hsig
    | some a =>
      rw [hx] at hsig
      simp only [Option.map_some', Option.some.injEq] at hsig
      exact ⟨a, rfl, congrArg (fun p => p.1) hsig,
        congrArg (fun p => p.2.1) hsig, congrArg (fun p => p.2.2) hsig⟩
  · intro k hk
    show getKey (auctionInitFloor args (addAddSlots args.auctionId args.adUnits
      args.timeout (auctionInitCreate args st))).auctions k = _
    rw [auctionInitFloor_other args _ k hk, addAddSlots_other _ _ _ _ k hk]
    unfold auctionInitCreate
    split
    · show getKey (setKey st.auctions _ _) _ = _
      rw [getKey_setKey]
      simp [hk]
    · rfl

end Medianet

namespace Medianet

/-- A concrete page snapshot for witnesses. -/
def samplePD : MPageDetail :=
  { domain := .str "d", page := .str "p", is_top := .boolean true,
    referrer := .str "r", canonical_url := .undefined, og_url := .undefined,
    twitter_url := .undefined, topmostLocation := .str "t", screen := .str "1x1" }

/-- A concrete adapter state for witnesses. -/
def sampleSt : St :=
  { auctions := [], config := mkConfigure (.str "cid1"),
    pageDetails := samplePD, logsQueue := [], errorQueue := [],
    randStream := [], now := .num 0 }

/-- Witness for C4 at a concrete fresh auction. -/
theorem medianet_auctionInit_creates_once_witness :
    ∃ a, getKey (auctionInitHandler
        { auctionId := "a1", adUnits := [], timeout := .num 200,
          timestamp := .num 5, bidderRequests := .undefined } sampleSt).auctions
        "a1" = some a ∧
      a.acid = "a1" ∧
      a.status = AUCTION_IN_PROGRESS ∧
      a.auctionInitTime = .num 5 :=
  (medianet_auctionInit_creates_once
    { auctionId := "a1", adUnits := [], timeout := .num 200,
      timestamp := .num 5, bidderRequests := .undefined } sampleSt).1 rfl
    (by decide)

theorem markUsed_find (reqs : List MBid) (bidId : String) (req : MBid)
    (h : reqs.find? (fun r => r.bidId == bidId) = some req) :
    ∃ req', (markUsed reqs bidId).find? (fun r => r.bidId == bidId) =
      some req' ∧ req'.used = true := by
  induction reqs with
  | nil => cases h
  | cons r rest ih =>
    by_cases hr : r.bidId = bidId
    · refine ⟨{ r with used := true }, ?_, rfl⟩
      simp [markUsed, hr, List.find?]
    · have hb : (r.bidId == bidId) = false := by simp [hr]
      simp only [List.find?, hb] at h
      obtain ⟨req', h1, h2⟩ := ih h
      exact ⟨req', by simp [markUsed, hb, List.find?, h1], h2⟩

/-- C10: `NO_BID` and `BID_TIMEOUT` add a status bid record to the
auction's `bidObjs` only when the auctionId names an existing auction, the
bidId matches a recorded bid request, and that request has not been
consumed (`used` is false); a `NO_BID` on a completed auction adds
nothing; and `addBidObj` (run by every bid-response insertion) sets the
matching request's `used` flag, so a request that received a response
never also gets a no-bid entry. -/
theorem medianet_status_bid_guards :
    (∀ (args : NoBidArgs) (st : St),
      (getKey st.auctions args.auctionId = none →
        noBidResponseHandler args st = st) ∧
      (∀ a, getKey st.auctions args.auctionId = some a →
        (a.hasEnded = true → noBidResponseHandler args st = st) ∧
        (a.findReqBid args.bidId = none → noBidResponseHandler args st = st) ∧
        (∀ req, a.findReqBid args.bidId = some req →
          (req.used = true → noBidResponseHandler args st = st) ∧
          (a.hasEnded = false → req.used = false →
            noBidResponseHandler args st =
              st.updAuction args.auctionId (fun a' =>
                a'.addBidObj { req with status := BID_NOBID }))))) ∧
    (∀ (tb : TimeoutBid) (st : St),
      (getKey st.auctions tb.auctionId = none → bidTimeoutStep tb st = st) ∧
      (∀ a, getKey st.auctions tb.auctionId = some a →
        (a.findReqBid tb.bidId = none → bidTimeoutStep tb st = st) ∧
        (∀ req, a.findReqBid tb.bidId = some req →
          (req.used = true → bidTimeoutStep tb st = st) ∧
          (req.used = false →
            bidTimeoutStep tb st =
              st.updAuction tb.auctionId (fun a' =>
                a'.addBidObj { req with status := BID_TIMEOUT_STATUS }))))) ∧
    (∀ (tbs : List TimeoutBid) (st : St),
      bidTimeoutHandler tbs st = tbs.foldl (fun s t => bidTimeoutStep t s) st) ∧
    (∀ (a : MAuction) (b : MBid),
      (a.addBidObj b).bidReqs = markUsed a.bidReqs b.bidId ∧
      (a.addBidObj b).bidObjs = a.bidObjs ++ [b]) ∧
    (∀ (reqs : List MBid) (bidId : String) (req : MBid),
      reqs.find? (fun r => r.bidId == bidId) = some req →
      ∃ req', (markUsed reqs bidId).find? (fun r => r.bidId == bidId) =
        some req' ∧ req'.used = true) := by
  refine ⟨?_, ?_, fun _ _ => rfl, fun _ _ => ⟨rfl, rfl⟩, markUsed_find⟩
  · intro args st
    constructor
    · intro hnone
      unfold noBidResponseHandler
      rw [hnone]
    · intro a ha
      refine ⟨?_, ?_, ?_⟩
      · intro hend
        unfold noBidResponseHandler
        rw [ha]
        simp [hend]
      · intro hreq
        unfold noBidResponseHandler
        rw [ha]
        by_cases hend : a.hasEnded
        · simp [hend]
        · simp [hend, hreq]
      · intro req hreq
        constructor
        · intro hused
          unfold noBidResponseHandler
          rw [ha]
          by_cases hend : a.hasEnded
          · simp [hend]
          · simp [hend, hreq, hused]
        · intro hend hused
          unfold noBidResponseHandler
          rw [ha]
          simp [hend, hreq, hused]
  · intro tb st
    constructor
    · intro hnone
      unfold bidTimeoutStep
      rw [hnone]
    · intro a ha
      refine ⟨?_, ?_⟩
      · intro hreq
        unfold bidTimeoutStep
        rw [ha]
        simp [hreq]
      · intro req hreq
        constructor
        · intro hused
          unfold bidTimeoutStep
          rw [ha]
          simp [hreq, hused]
        · intro hused
          unfold bidTimeoutStep
          rw [ha]
          simp [hreq, hused]

/-- Witness for C10: a `NO_BID` for an unknown auction changes nothing. -/
theorem medianet_status_bid_guards_witness :
    noBidResponseHandler { auctionId := "missing", bidId := "b1" } sampleSt =
      sampleSt :=
  ((medianet_status_bid_guards).1
    { auctionId := "missing", bidId := "b1" } sampleSt).1 rfl

end Medianet

namespace Medianet

/-- C7: when the external `convertCurrency` call throws, `exchangeCurrency`
catches the exception (logging a console error only) and returns the input
price unchanged; when it succeeds, it returns the converted value formatted
to four decimal places by `toFixed(4)`. -/
theorem medianet_exchangeCurrency_catch (conv : ConvFn)
    (price fromCurrency toCurrency : Val) :
    (∀ e, conv price fromCurrency toCurrency = .error e →
      exchangeCurrency conv price fromCurrency toCurrency = price) ∧
    (∀ q, conv price fromCurrency toCurrency = .ok q →
      exchangeCurrency conv price fromCurrency toCurrency =
        .str (toFixed4 q)) := by
  constructor
  · intro e he
    unfold exchangeCurrency
    rw [he]
  · intro q hq
    unfold exchangeCurrency
    rw [hq]

/-- Witness for C7: a throwing conversion leaves the price untouched, a
successful conversion of 5/2 renders as "2.5000". -/
theorem medianet_exchangeCurrency_catch_witness :
    exchangeCurrency (fun _ _ _ => .error ()) (.num 3) (.str "EUR")
      (.str "USD") = .num 3 ∧
    exchangeCurrency (fun _ _ _ => .ok (5/2)) (.num 3) (.str "EUR")
      (.str "USD") = .str "2.5000" := by
  constructor
  · exact (medianet_exchangeCurrency_catch _ _ _ _).1 () rfl
  · rw [(medianet_exchangeCurrency_catch (fun _ _ _ => .ok (5/2)) (.num 3)
      (.str "EUR") (.str "USD")).2 (5/2) rfl]
    norm_num [toFixed4]
    decide

/-- C6: on a config response that fails `JSON.parse` (or whose processing
throws, e.g. a JSON `null`), `Configure._parseResponse` catches, sets
`ajaxState` to `CONFIG_ERROR` and appends exactly one
`ERROR_CONFIG_JSON_PARSE` pixel to `errorQueue`, leaving `loggingPercent`,
`urlToConsume`, `logsQueue` and the auctions map unchanged; as a total
function it propagates nothing. -/
theorem medianet_parseResponse_catch (debugParse : Except Val Val) (st : St) :
    (∀ e,
      (_parseResponse (.error e) debugParse st).config.ajaxState =
        CONFIG_ERROR ∧
      (_parseResponse (.error e) debugParse st).config.loggingPercent =
        st.config.loggingPercent ∧
      (_parseResponse (.error e) debugParse st).config.urlToConsume =
        st.config.urlToConsume ∧
      (_parseResponse (.error e) debugParse st).errorQueue =
        st.errorQueue ++ [EVENT_PIXEL_URL ++ "?" ++
          formatQS (errorLoggerFields st ERROR_CONFIG_JSON_PARSE e)] ∧
      (_parseResponse (.error e) debugParse st).logsQueue = st.logsQueue ∧
      (_parseResponse (.error e) debugParse st).auctions = st.auctions) ∧
    (_parseResponse (.ok .null) debugParse st =
      _parseResponse (.error (.str "TypeError")) debugParse st) := by
  constructor
  · intro e
    exact ⟨rfl, rfl, rfl, rfl, rfl, rfl⟩
  · rfl

/-- `obj.key` on an embedded object agrees with the ordered-map lookup. -/
theorem Val.get_obj (l : List (String × Val)) (k : String) :
    Val.get (.obj l) k = (getKey l k).getD .undefined := by
  induction l with
  | nil => rfl
  | cons kv rest ih =>
    obtain ⟨k0, v0⟩ := kv
    by_cases h : k0 = k
    · simp [Val.get, getKey, List.find?, h]
    · have hb : (k0 == k) = false := by simp [h]
      simp only [Val.get, getKey, List.find?, hb]
      simpa [Val.get] using ih

/-- C8: `enableAnalytics` rejects a configuration whose `options.cid` is
missing (or whose `configuration`/`options` is missing): it only logs a
console error, creating no `pageDetails`/`config`, not setting the global
flag and not delegating; with a cid present it enables analytics, builds
the config from the cid, forces `options.sampling` to 1 and delegates to
the original `enableAnalytics`. -/
theorem medianet_enableAnalytics_guard (configuration : Val)
    (pd : MPageDetail) (initEnv : InitEnv) (es : EnableState) :
    ((configuration.truthy = false ∨
      (configuration.get "options").truthy = false ∨
      ((configuration.get "options").get "cid").truthy = false) →
      enableAnalytics configuration pd initEnv es = es) ∧
    (configuration.truthy = true →
      (configuration.get "options").truthy = true →
      ((configuration.get "options").get "cid").truthy = true →
      (enableAnalytics configuration pd initEnv es).analyticsEnabled = true ∧
      (enableAnalytics configuration pd initEnv es).pageDetails = some pd ∧
      (enableAnalytics configuration pd initEnv es).config =
        some (configInit initEnv
          { mkConfigure ((configuration.get "options").get "cid") with
            pubLper := jsOr ((configuration.get "options").get "sampling") (.str "") }) ∧
      (enableAnalytics configuration pd initEnv es).delegated =
        some (setOptionsSampling configuration)) ∧
    (∀ fs ofs, configuration = .obj fs →
      getKey fs "options" = some (.obj ofs) →
      deepAccessVal (setOptionsSampling configuration) ["options", "sampling"] =
        .num 1) := by
  refine ⟨?_, ?_, ?_⟩
  · intro h
    unfold enableAnalytics
    rcases h with h | h | h <;> simp [h]
  · intro h1 h2 h3
    unfold enableAnalytics
    simp only [h1, h2, h3, Bool.not_true, Bool.false_eq_true, if_false]
    exact ⟨rfl, rfl, rfl, rfl⟩
  · intro fs ofs hconf hopts
    subst hconf
    have h1 : deepAccessVal (setOptionsSampling (.obj fs))
        ["options", "sampling"] =
        deepAccessVal (Val.get (setOptionsSampling (.obj fs)) "options")
          ["sampling"] := by
      unfold setOptionsSampling
      rfl
    rw [h1]
    have h2 : Val.get (setOptionsSampling (.obj fs)) "options" =
        .obj (setKey ofs "sampling" (.num 1)) := by
      unfold setOptionsSampling
      rw [Val.get_obj, getKey_updKey, hopts]
      simp
    rw [h2]
    have h3 : deepAccessVal (.obj (setKey ofs "sampling" (.num 1)))
        ["sampling"] =
        Val.get (.obj (setKey ofs "sampling" (.num 1))) "sampling" := rfl
    rw [h3, Val.get_obj, getKey_setKey]
    simp

end Medianet

namespace Medianet

/-- Witness for C8: a configuration without `options.cid` leaves the enable
state untouched. -/
theorem medianet_enableAnalytics_guard_witness :
    enableAnalytics .undefined samplePD
      { medianetTest := .undefined, hostname := "h", mnetSetconfig := .undefined }
      { analyticsEnabled := false, pageDetails := none, config := none,
        delegated := none } =
      { analyticsEnabled := false, pageDetails := none, config := none,
        delegated := none } :=
  (medianet_enableAnalytics_guard .undefined samplePD
    { medianetTest := .undefined, hostname := "h", mnetSetconfig := .undefined }
    { analyticsEnabled := false, pageDetails := none, config := none,
      delegated := none }).1 (Or.inl rfl)

/-- C5: `firePixel` appends exactly one URL — the fixed analytics
`ENDPOINT`, `'&'`, then the query string — to `logsQueue`; every call of
`fireAuctionLog` appends at most one such URL, whose query string is the
`formatQS`-rendered common, per-bid and targeting parameter chunks; and
`formatQS` renders `key=` for an undefined value, JSON-stringifies
plain-object values, `encodeURIComponent`s every other value, and joins the
pairs with `'&'`. -/
theorem medianet_auction_log_url (acid adtag : String) (logType : String)
    (adId : Val) (st : St) (qs : String) (data : List (String × Val))
    (bidParams : List (List (String × Val))) (targeting : Val) (k : String) :
    ((fireAuctionLog acid adtag logType adId st).logsQueue = st.logsQueue ∨
      ∃ common bp targ,
        (fireAuctionLog acid adtag logType adId st).logsQueue =
          st.logsQueue ++ [ENDPOINT ++ "&" ++ auctionLogQS common bp targ]) ∧
    (firePixel qs st).logsQueue = st.logsQueue ++ [ENDPOINT ++ "&" ++ qs] ∧
    auctionLogQS data bidParams targeting =
      formatQS data ++ "&" ++
        (bidParams.map (fun bp => formatQS bp ++ "&")).foldl (· ++ ·) "" ++
        formatQS [("targ", targeting)] ∧
    formatQS data = String.intercalate "&" (data.map pairQS) ∧
    pairQS (k, .undefined) = k ++ "=" ∧
    (∀ s, pairQS (k, .str s) = k ++ "=" ++ encodeURIComponent s) ∧
    (∀ q, pairQS (k, .num q) =
      k ++ "=" ++ encodeURIComponent (ratToJsString q)) ∧
    (∀ fields, pairQS (k, .obj fields) =
      k ++ "=" ++ encodeURIComponent ((jsonStringifyVal (.obj fields)).getD "")) := by
  refine ⟨?_, rfl, rfl, rfl, rfl, fun _ => rfl, fun _ => rfl, fun _ => rfl⟩
  rcases hA : getKey st.auctions acid with _ | a
  · unfold fireAuctionLog
    rw [hA]
    exact Or.inl rfl
  · by_cases hRA : logType = LOG_TYPE_RA
    · subst hRA
      rcases hW : a.findBidObjByAdId adId with _ | w
      · unfold fireAuctionLog
        rw [hA]
        dsimp only
        simp only [beq_self_eq_true, if_true]
        rw [hW]
        exact Or.inl rfl
      · unfold fireAuctionLog
        rw [hA]
        dsimp only
        simp only [beq_self_eq_true, if_true]
        rw [hW]
        exact Or.inr ⟨_, _, _, rfl⟩
    · unfold fireAuctionLog
      rw [hA]
      dsimp only
      have hb : (logType == LOG_TYPE_RA) = false := by simp [hRA]
      simp only [hb, Bool.false_eq_true, if_false]
      exact Or.inr ⟨_, _, _, rfl⟩

/-- Witness for C5 (instantiates the universals; the statement's only
implication-free conjuncts evaluate on a concrete pixel). -/
theorem medianet_auction_log_url_witness :
    (firePixel "a=1" sampleSt).logsQueue =
      sampleSt.logsQueue ++ [ENDPOINT ++ "&" ++ "a=1"] :=
  (medianet_auction_log_url "x" "y" "APPR" .undefined sampleSt "a=1" [] [] .undefined
    "k").2.1

/-- `getShouldBeLogged` touches only `config.shouldBeLogged` and the random
stream. -/
theorem getShouldBeLogged_preserves (lt : String) (st : St) :
    ((getShouldBeLogged lt st).2).auctions = st.auctions ∧
    ((getShouldBeLogged lt st).2).logsQueue = st.logsQueue ∧
    ((getShouldBeLogged lt st).2).errorQueue = st.errorQueue := by
  unfold getShouldBeLogged
  cases getKey st.config.shouldBeLogged lt with
  | some b => exact ⟨rfl, rfl, rfl⟩
  | none =>
    unfold isSampled
    cases jsParseFloat st.config.loggingPercent <;> exact ⟨rfl, rfl, rfl⟩

/-- A non-`RA` `fireAuctionLog` on an existing auction appends exactly one
URL and leaves the auction's ad slots unchanged. -/
theorem fireAuctionLog_appr (acid adtag : String) (logType : String)
    (adId : Val) (st : St) (a : MAuction)
    (ha : getKey st.auctions acid = some a) (hlt : logType ≠ LOG_TYPE_RA) :
    ∃ u a',
      (fireAuctionLog acid adtag logType adId st).logsQueue =
        st.logsQueue ++ [u] ∧
      getKey (fireAuctionLog acid adtag logType adId st).auctions acid =
        some a' ∧
      a'.adSlots = a.adSlots := by
  unfold fireAuctionLog
  rw [ha]
  dsimp only
  have hb : (logType == LOG_TYPE_RA) = false := by simp [hlt]
  simp only [hb, Bool.false_eq_true, if_false]
  refine ⟨_, (getLoggingBids a adtag).1, rfl, ?_, rfl⟩
  show getKey (updKey st.auctions acid (fun _ => (getLoggingBids a adtag).1))
    acid = _
  rw [getKey_updKey]
  simp [ha]

/-- C9: for a given ad slot and the `APPR` log type, at most one auction
log is ever fired: once the slot's `logged[APPR]` flag is set a call fires
nothing; a firing call appends exactly one log URL and sets the flag; and
the `isSampled` decision is drawn at most once per log type — a cached
entry is returned as-is without consuming randomness, a missing entry is
drawn once, cached, and reused by every slot. -/
theorem medianet_apprlog_once (auctionId adUnitName : String)
    (logType : String) (st : St) :
    (∀ a slot, getKey st.auctions auctionId = some a →
      getKey a.adSlots adUnitName = some slot →
      slot.logged.contains LOG_TYPE_APPR = true →
      (fireApPrLog auctionId adUnitName LOG_TYPE_APPR st).logsQueue =
        st.logsQueue) ∧
    (∀ a slot, getKey st.auctions auctionId = some a →
      getKey a.adSlots adUnitName = some slot →
      slot.logged.contains LOG_TYPE_APPR = false →
      (getShouldBeLogged LOG_TYPE_APPR st).1 = true →
      ∃ u a' slot',
        (fireApPrLog auctionId adUnitName LOG_TYPE_APPR st).logsQueue =
          st.logsQueue ++ [u] ∧
        getKey (fireApPrLog auctionId adUnitName LOG_TYPE_APPR st).auctions
          auctionId = some a' ∧
        getKey a'.adSlots adUnitName = some slot' ∧
        slot'.logged.contains LOG_TYPE_APPR = true) ∧
    (∀ b, getKey st.config.shouldBeLogged logType = some b →
      getShouldBeLogged logType st = (b, st)) ∧
    (getKey st.config.shouldBeLogged logType = none →
      ((getShouldBeLogged logType st).2).config.shouldBeLogged =
        setKey st.config.shouldBeLogged logType
          (getShouldBeLogged logType st).1 ∧
      ((getShouldBeLogged logType st).2).randStream = st.randStream.tail) := by
  refine ⟨?_, ?_, ?_, ?_⟩
  · intro a slot ha hslot hlogged
    unfold fireApPrLog
    rw [ha]
    dsimp only [Option.bind]
    rw [hslot]
    rcases hgs : getShouldBeLogged LOG_TYPE_APPR st with ⟨should, st1⟩
    dsimp only
    rw [hlogged]
    simp only [Bool.not_true, Bool.and_false, Bool.false_eq_true, if_false]
    have := (getShouldBeLogged_preserves LOG_TYPE_APPR st).2.1
    rw [hgs] at this
    exact this
  · intro a slot ha hslot hlogged hshould
    unfold fireApPrLog
    rw [ha]
    dsimp only [Option.bind]
    rw [hslot]
    rcases hgs : getShouldBeLogged LOG_TYPE_APPR st with ⟨should, st1⟩
    dsimp only
    rw [hgs] at hshould
    dsimp only at hshould
    rw [hshould, hlogged]
    simp only [Bool.not_false, Bool.and_true, if_true]
    have hpre := getShouldBeLogged_preserves LOG_TYPE_APPR st
    rw [hgs] at hpre
    have ha1 : getKey st1.auctions auctionId = some a := by
      rw [hpre.1]
      exact ha
    obtain ⟨u, a', hlq, ha', hslots⟩ :=
      fireAuctionLog_appr auctionId adUnitName LOG_TYPE_APPR .undefined st1 a ha1
        (by decide)
    refine ⟨u,
      { a' with adSlots := updKey a'.adSlots adUnitName (fun s => { s with logged := s.logged ++ [LOG_TYPE_APPR] }) },
      { slot with logged := slot.logged ++ [LOG_TYPE_APPR] },
      ?_, ?_, ?_, ?_⟩
    · show (fireAuctionLog auctionId adUnitName LOG_TYPE_APPR .undefined
        st1).logsQueue = st.logsQueue ++ [u]
      rw [hlq, hpre.2.1]
    · show getKey (updKey (fireAuctionLog auctionId adUnitName LOG_TYPE_APPR
        .undefined st1).auctions auctionId _) auctionId = _
      rw [getKey_updKey]
      simp only [beq_self_eq_true, if_true]
      rw [ha']
      rfl
    · show getKey (updKey a'.adSlots adUnitName _) adUnitName = _
      rw [getKey_updKey]
      simp only [beq_self_eq_true, if_true]
      rw [hslots, hslot]
      rfl
    · simp
  · intro b hb
    unfold getShouldBeLogged
    rw [hb]
  · intro hnone
    unfold getShouldBeLogged
    rw [hnone]
    unfold isSampled
    cases jsParseFloat st.config.loggingPercent <;> exact ⟨rfl, rfl⟩

end Medianet

namespace Medianet

/-- A state whose `APPR` sampling decision is already cached. -/
def sampleStCached : St :=
  { sampleSt with config :=
      { sampleSt.config with shouldBeLogged := [("APPR", true)] } }

/-- Witness for C9: a cached sampling decision is reused as-is, consuming
no randomness. -/
theorem medianet_apprlog_once_witness :
    getShouldBeLogged "APPR" sampleStCached = (true, sampleStCached) :=
  (medianet_apprlog_once "x" "y" "APPR" sampleStCached).2.2.1 true rfl

end Medianet
